import Mathlib

/-!
# HyperPay account chaincode

A shallow embedding of `chaincode/smart-contract.go`: the account record, the
transaction stub it talks to (world state, endorsement metadata, the sequence of
stub calls), and the six transaction functions `InitLedger`, `AccountExists`,
`ReadAccount`, `CreateAccount`, `DeleteAccount` and `Transfer`.

Conventions of the embedding

* A Go function returning `error` returns `Option Err` (`none` is `nil`);
  `AccountExists` returns the pair `Bool × Option Err`, as in Go.
* The transaction context is split in two: an immutable `Env` (identity of the
  caller and of the peer, the JSON codec, and the failure behaviour of the
  platform) and a `Ledger` threaded through every call.
* `float32` balances are taken as exact rationals: rounding is not modelled, and a
  result outside the range of `float32` shows only through an encoder that refuses
  it (`float32Marshal`).
* `PutState` and `DelState` act on `Ledger.world` at the call. No function of the
  contract reads a key after it wrote within one invocation, so a read always sees
  the state the invocation started from; the ledger a failing invocation returns is
  what it had staged up to the failure.
-/

namespace HyperPay

/-! ## Data model -/

/-- Account record of the contract, `type Account struct` in the source. -/
structure Account where
  ID : String
  Balance : ℚ
  Bank : String
deriving DecidableEq

/-- World-state values are opaque byte strings. -/
abbrev Bytes := String

/-- Error values. `authorization` is what the organisation guard reports, `codec` is an
error value of `encoding/json` handed on unchanged, `text` is an error built by
`errors.New` or `fmt.Errorf`, or one returned by the stub. -/
inductive Err where
  | authorization (msg : String)
  | codec (msg : String)
  | text (msg : String)
deriving DecidableEq

/-- Message of an error, Go's `err.Error()` (what `%v` prints). -/
def Err.Error : Err → String
  | .authorization m => m
  | .codec m => m
  | .text m => m

/-- One call made on the transaction stub. -/
inductive Call where
  | getState (key : String)
  | putState (key : String) (value : Bytes)
  | delState (key : String)
  | setEndorsement (key : String) (orgs : List String)
deriving DecidableEq

/-- What an invocation can observe and change: the key-value world state, the per-key
endorsement metadata, and the stub calls made so far (oldest first). -/
structure Ledger where
  world : String → Option Bytes
  endorsers : String → Option (List String)
  calls : List Call

/-- The two functions of `encoding/json` the contract uses, specialised to `Account`:
`json.Marshal(account)` and `json.Unmarshal(bytes, &account)`. They belong to the Go
standard library, so the contract is embedded over an arbitrary codec. -/
structure Codec where
  marshal : Account → Except String Bytes
  unmarshal : Bytes → Except String Account

/-- Everything of the invocation that the contract does not control: who calls, which
organisation the peer belongs to, the codec, and whether a stub call fails (each failure
oracle sees the ledger at the time of the call and answers with the error message). -/
structure Env where
  clientOrg : Except String String
  peerOrg : Except String String
  codec : Codec
  getStateErr : Ledger → String → Option String
  putStateErr : Ledger → String → Bytes → Option String
  delStateErr : Ledger → String → Option String
  endorseErr : Ledger → String → List String → Option String

/-! ## The transaction stub -/

/-- Ledger after one more stub call has been recorded. -/
def Ledger.record (s : Ledger) (c : Call) : Ledger :=
  { s with calls := s.calls ++ [c] }

/-- Stub method `GetState(key)`: the stored bytes (`none` for Go's `nil`) or an error. -/
def GetState (env : Env) (key : String) (s : Ledger) : (Option Bytes × Option String) × Ledger :=
  match env.getStateErr s key with
  | some e => ((none, some e), s.record (.getState key))
  | none => ((s.world key, none), s.record (.getState key))

/-- Stub method `PutState(key, value)`. -/
def PutState (env : Env) (key : String) (value : Bytes) (s : Ledger) : Option String × Ledger :=
  match env.putStateErr s key value with
  | some e => (some e, s.record (.putState key value))
  | none =>
    (none, { (s.record (.putState key value)) with
               world := fun k => if k = key then some value else s.world k })

/-- Stub method `DelState(key)`. -/
def DelState (env : Env) (key : String) (s : Ledger) : Option String × Ledger :=
  match env.delStateErr s key with
  | some e => (some e, s.record (.delState key))
  | none =>
    (none, { (s.record (.delState key)) with
               world := fun k => if k = key then none else s.world k })

/-! ## Helpers of the package that are not in the translated file -/

/-- Modelled from the spec: `getClientOrgID` is not in the source file. Section 4.1:
the guard resolves the invoking client's organisation from the invocation's identity and
fails with an authorization error when that resolution fails. It touches no state. -/
def getClientOrgID (env : Env) : String × Option Err :=
  match env.clientOrg with
  | .ok org => (org, none)
  | .error e => ("", some (.authorization e))

/-- Modelled from the spec: `verifyClientOrgMatchesPeerOrg` is not in the source file.
Section 4.1: the guard resolves the peer's organisation from the deployment configuration
and fails with an authorization error when that resolution fails or when the two
organisations are not the same string. It touches no state. -/
def verifyClientOrgMatchesPeerOrg (env : Env) (clientOrgID : String) : Option Err :=
  match env.peerOrg with
  | .error e => some (.authorization e)
  | .ok peerOrgID =>
    if clientOrgID = peerOrgID then none
    else some (.authorization
      ("client from org " ++ clientOrgID ++ " is not authorized on a peer of org " ++ peerOrgID))

/-- Modelled from the spec: `setAssetStateBasedEndorsement` is not in the source file.
Sections 5 and 6: `SetEndorsers(key, orgIDs)` either fails or records the organisation set
in the per-key endorsement metadata, which is separate from the account bytes. -/
def setAssetStateBasedEndorsement (env : Env) (key : String) (orgs : List String) (s : Ledger) :
    Option Err × Ledger :=
  match env.endorseErr s key orgs with
  | some e => (some (.text e), s.record (.setEndorsement key orgs))
  | none =>
    (none, { (s.record (.setEndorsement key orgs)) with
               endorsers := fun k => if k = key then some orgs else s.endorsers k })

/-! ## The contract -/

/-- Seed accounts of `InitLedger`. -/
def seedAccounts : List Account :=
  [ { ID := "account1", Balance := 100, Bank := "JPMorgan Chase & Co." },
    { ID := "account2", Balance := 200, Bank := "Bank of America Corp." },
    { ID := "account3", Balance := 300, Bank := "JPMorgan Chase & Co." },
    { ID := "account4", Balance := 400, Bank := "Bank of America Corp." },
    { ID := "account5", Balance := 500, Bank := "JPMorgan Chase & Co." } ]

/-- Loop body of `InitLedger` over the remaining accounts: encode and store each one,
returning at the first error. -/
def putAccounts (env : Env) : List Account → Ledger → Option Err × Ledger
  | [], s => (none, s)
  | account :: rest, s =>
    match env.codec.marshal account with
    | .error e => (some (.codec e), s)
    | .ok accountJSON =>
      match PutState env account.ID accountJSON s with
      | (some e, s1) => (some (.text ("failed to put to world state. " ++ e)), s1)
      | (none, s1) => putAccounts env rest s1

/-- Source function `InitLedger`: adds a base set of accounts to the ledger. -/
def InitLedger (env : Env) (s : Ledger) : Option Err × Ledger :=
  putAccounts env seedAccounts s

/-- Source function `AccountExists(id)`. -/
def AccountExists (env : Env) (id : String) (s : Ledger) : (Bool × Option Err) × Ledger :=
  match getClientOrgID env with
  | (_, some err) => ((false, some err), s)
  | (clientOrgID, none) =>
    match verifyClientOrgMatchesPeerOrg env clientOrgID with
    | some err => ((false, some err), s)
    | none =>
      match GetState env id s with
      | ((_, some err), s1) =>
        ((false, some (.text ("failed to read from world state: " ++ err))), s1)
      | ((none, none), s1) =>
        ((false, some (.text ("the account " ++ id ++ " does not exist"))), s1)
      | ((some _, none), s1) => ((true, none), s1)

/-- Source function `ReadAccount(id)`. Go returns either `(nil, err)` or `(&account, nil)`,
never both or neither, so the result is an `Except`. -/
def ReadAccount (env : Env) (id : String) (s : Ledger) : Except Err Account × Ledger :=
  match getClientOrgID env with
  | (_, some err) => (.error err, s)
  | (clientOrgID, none) =>
    match verifyClientOrgMatchesPeerOrg env clientOrgID with
    | some err => (.error err, s)
    | none =>
      match GetState env id s with
      | ((_, some err), s1) =>
        (.error (.text ("failed to read from world state: " ++ err)), s1)
      | ((none, none), s1) =>
        (.error (.text ("the account " ++ id ++ " does not exist")), s1)
      | ((some accountJSON, none), s1) =>
        match env.codec.unmarshal accountJSON with
        | .error e => (.error (.codec e), s1)
        | .ok account => (.ok account, s1)

/-- Source function `CreateAccount(id, balance, bank)`. -/
def CreateAccount (env : Env) (id : String) (balance : ℚ) (bank : String) (s : Ledger) :
    Option Err × Ledger :=
  match getClientOrgID env with
  | (_, some err) => (some err, s)
  | (clientOrgID, none) =>
    match verifyClientOrgMatchesPeerOrg env clientOrgID with
    | some err => (some err, s)
    | none =>
      match AccountExists env id s with
      | ((_, some err), s1) => (some err, s1)
      | ((true, none), s1) => (some (.text ("the account " ++ id ++ " already exists")), s1)
      | ((false, none), s1) =>
        let account : Account := { ID := id, Balance := balance, Bank := bank }
        match env.codec.marshal account with
        | .error e => (some (.codec e), s1)
        | .ok accountJSON =>
          match PutState env account.ID accountJSON s1 with
          | (some e, s2) => (some (.text ("failed to put asset in public data: " ++ e)), s2)
          | (none, s2) =>
            match setAssetStateBasedEndorsement env account.ID [clientOrgID] s2 with
            | (some err, s3) =>
              (some (.text ("failed setting state based endorsement for buyer and seller: "
                ++ err.Error)), s3)
            | (none, s3) => (none, s3)

/-- Source function `DeleteAccount(id)`. -/
def DeleteAccount (env : Env) (id : String) (s : Ledger) : Option Err × Ledger :=
  match getClientOrgID env with
  | (_, some err) => (some err, s)
  | (clientOrgID, none) =>
    match verifyClientOrgMatchesPeerOrg env clientOrgID with
    | some err => (some err, s)
    | none =>
      match AccountExists env id s with
      | ((_, some err), s1) => (some err, s1)
      | ((false, none), s1) => (some (.text ("the account " ++ id ++ " does not exist")), s1)
      | ((true, none), s1) =>
        match DelState env id s1 with
        | (some e, s2) => (some (.text e), s2)
        | (none, s2) => (none, s2)

/-- Source function `Transfer(fromId, toId, amount)`. The two accounts read are two
separate values, also when `fromId = toId`. -/
def Transfer (env : Env) (fromId toId : String) (amount : ℚ) (s : Ledger) : Option Err × Ledger :=
  match getClientOrgID env with
  | (_, some err) => (some err, s)
  | (clientOrgID, none) =>
    match verifyClientOrgMatchesPeerOrg env clientOrgID with
    | some err => (some err, s)
    | none =>
      if amount ≤ 0 then (some (.text "amount must be positive"), s)
      else
        match ReadAccount env fromId s with
        | (.error _, s1) => (some (.text "source account doesn't exist"), s1)
        | (.ok fromAcc0, s1) =>
          match ReadAccount env toId s1 with
          | (.error _, s2) => (some (.text "destination account doesn't exist"), s2)
          | (.ok toAcc0, s2) =>
            let fromAcc : Account := { fromAcc0 with Balance := fromAcc0.Balance - amount }
            let toAcc : Account := { toAcc0 with Balance := toAcc0.Balance + amount }
            match env.codec.marshal fromAcc with
            | .error e => (some (.codec e), s2)
            | .ok fromAccJson =>
              match PutState env fromId fromAccJson s2 with
              | (some e, s3) => (some (.text e), s3)
              | (none, s3) =>
                match env.codec.marshal toAcc with
                | .error e => (some (.codec e), s3)
                | .ok toAccJson =>
                  match PutState env toId toAccJson s3 with
                  | (some e, s4) => (some (.text e), s4)
                  | (none, s4) => (none, s4)

/-! ## Assumptions on the environment -/

/-- The caller is authorized: client and peer organisation both resolve, to the same
string. -/
def Env.Authorized (env : Env) : Prop :=
  ∃ org, env.clientOrg = .ok org ∧ env.peerOrg = .ok org

/-- The caller is not authorized: the client organisation cannot be resolved, or it is
not the organisation the peer resolves to. -/
def Env.Unauthorized (env : Env) : Prop :=
  (∃ e, env.clientOrg = .error e) ∨ (∃ org, env.clientOrg = .ok org ∧ env.peerOrg ≠ .ok org)

/-- No `GetState` call fails. -/
def Env.ReadsSucceed (env : Env) : Prop := ∀ s key, env.getStateErr s key = none

/-- No `PutState` and no `DelState` call fails. -/
def Env.WritesSucceed (env : Env) : Prop :=
  (∀ s key value, env.putStateErr s key value = none) ∧ (∀ s key, env.delStateErr s key = none)

/-- Encoding the account succeeds and decoding the result gives the account back. -/
def Codec.RoundTrips (c : Codec) (a : Account) : Prop :=
  ∃ bs, c.marshal a = .ok bs ∧ c.unmarshal bs = .ok a

/-! ## A concrete codec and concrete invocations

The theorems below hold for every codec. `wireCodec` is one instance, used to exercise
them on concrete ledgers: it writes an account as the compact object with the three
field names of the struct tags, supports whole-number balances only, escapes nothing,
and reads back exactly what it writes. -/

/-- Characters up to the next double quote, and what follows that quote. -/
def untilQuote : List Char → Option (List Char × List Char)
  | [] => none
  | c :: cs =>
    if c = '"' then some ([], cs)
    else match untilQuote cs with
      | some (w, r) => some (c :: w, r)
      | none => none

/-- Remainder of the input after the expected literal. -/
def expect : List Char → List Char → Option (List Char)
  | [], cs => some cs
  | _ :: _, [] => none
  | l :: ls, c :: cs => if l = c then expect ls cs else none

/-- Leading decimal digits as a number, with the count of digits read and the rest. -/
def readDigits : List Char → Nat → Nat → Nat × Nat × List Char
  | [], acc, n => (acc, n, [])
  | c :: cs, acc, n =>
    if c.isDigit then readDigits cs (acc * 10 + (c.toNat - 48)) (n + 1) else (acc, n, c :: cs)

/-- Optionally signed integer at the head of the input. -/
def readInt (cs : List Char) : Option (Int × List Char) :=
  match cs with
  | '-' :: rest =>
    match readDigits rest 0 0 with
    | (_, 0, _) => none
    | (v, _, r) => some (-(v : Int), r)
  | _ =>
    match readDigits cs 0 0 with
    | (_, 0, _) => none
    | (v, _, r) => some ((v : Int), r)

/-- Decimal text of an integer. -/
def showInt (i : Int) : String :=
  if i < 0 then "-" ++ Nat.repr i.natAbs else Nat.repr i.natAbs

/-- Encoder of the concrete codec. -/
def wireMarshal (a : Account) : Except String Bytes :=
  if a.Balance.den = 1 then
    .ok ("\x7b\"ID\":\"" ++ a.ID ++ "\",\"Balance float32\":" ++ showInt a.Balance.num
          ++ ",\"Bank string\":\"" ++ a.Bank ++ "\"\x7d")
  else .error "json: unsupported value"

/-- Decoder of the concrete codec: accepts exactly the layout `wireMarshal` writes. -/
def wireUnmarshal (bs : Bytes) : Except String Account :=
  let parsed : Option Account :=
    (expect "\x7b\"ID\":\"".data bs.data).bind fun r1 =>
    (untilQuote r1).bind fun (id, r2) =>
    (expect ",\"Balance float32\":".data r2).bind fun r3 =>
    (readInt r3).bind fun (bal, r4) =>
    (expect ",\"Bank string\":\"".data r4).bind fun r5 =>
    (untilQuote r5).bind fun (bank, r6) =>
    if r6 = ['\x7d'] then some { ID := String.mk id, Balance := (bal : ℚ), Bank := String.mk bank }
    else none
  match parsed with
  | some a => .ok a
  | none => .error "invalid character"

/-- Concrete codec built from `wireMarshal` and `wireUnmarshal`. -/
def wireCodec : Codec :=
  { marshal := wireMarshal, unmarshal := wireUnmarshal }

/-- A client of Org1 on a peer of Org1, on a platform where no stub call fails. -/
def org1Env : Env :=
  { clientOrg := .ok "Org1MSP"
    peerOrg := .ok "Org1MSP"
    codec := wireCodec
    getStateErr := fun _ _ => none
    putStateErr := fun _ _ _ => none
    delStateErr := fun _ _ => none
    endorseErr := fun _ _ _ => none }

/-- A client of Org2 on a peer of Org1. -/
def org2Env : Env :=
  { org1Env with clientOrg := .ok "Org2MSP" }

/-- A client of Org1 on a peer of Org1 whose world state cannot be read. -/
def unreadableEnv : Env :=
  { org1Env with getStateErr := fun _ _ => some "ledger unavailable" }

/-- The ledger with no record at all. -/
def emptyLedger : Ledger :=
  { world := fun _ => none, endorsers := fun _ => none, calls := [] }

/-- Stored bytes of account1 with balance 100. -/
def record1 : Bytes :=
  "\x7b\"ID\":\"account1\",\"Balance float32\":100,\"Bank string\":\"JPMorgan\"\x7d"

/-- Stored bytes of account2 with balance 200. -/
def record2 : Bytes :=
  "\x7b\"ID\":\"account2\",\"Balance float32\":200,\"Bank string\":\"BofA\"\x7d"

/-- A ledger holding account1 and account2 and nothing else. -/
def twoAccounts : Ledger :=
  { world := fun k =>
      if k = "account1" then some record1 else if k = "account2" then some record2 else none
    endorsers := fun _ => none
    calls := [] }

/-- A ledger whose only record, at account1, is not an encoded account. -/
def junkLedger : Ledger :=
  { world := fun k => if k = "account1" then some "junk" else none
    endorsers := fun _ => none
    calls := [] }

/-- A client of Org1 on a peer of Org1 whose world state cannot be written. -/
def unwritableEnv : Env :=
  { org1Env with putStateErr := fun _ _ _ => some "ledger unavailable" }

/-- A client of Org1 on a peer of Org1 where only the very first stub call, a read,
fails: a transient failure of the platform. -/
def flakyEnv : Env :=
  { org1Env with
    getStateErr := fun s _ => if s.calls.isEmpty then some "ledger unavailable" else none }

/-- A client of Org1 on a peer of Org1 where only the very first stub call, a write,
fails: a transient failure of the platform. -/
def flakyWriteEnv : Env :=
  { org1Env with
    putStateErr := fun s _ _ => if s.calls.isEmpty then some "ledger unavailable" else none }

/-- Magnitude from which a `float32` result is infinite: 2^128 - 2^103. -/
def float32Overflow : ℚ := 340282356779733661637539395458142568448

/-- Encoder that fails where `json.Marshal` fails on an `Account`: a balance at or beyond
the overflow magnitude stands for the `float32` value +Inf or -Inf, which `json.Marshal`
refuses as an unsupported value. Every other account is encoded by `wireMarshal`. -/
def float32Marshal (a : Account) : Except String Bytes :=
  if float32Overflow ≤ a.Balance then .error "json: unsupported value: +Inf"
  else if a.Balance ≤ -float32Overflow then .error "json: unsupported value: -Inf"
  else wireMarshal a

/-- A client of Org1 on a peer of Org1, no stub call fails, and the encoder refuses
balances outside the range of `float32`. -/
def float32Env : Env :=
  { org1Env with codec := { marshal := float32Marshal, unmarshal := wireUnmarshal } }

/-- Stored bytes of account1 overdrawn to -2^127. -/
def overdrawnRecord : Bytes :=
  "\x7b\"ID\":\"account1\",\"Balance float32\":-170141183460469231731687303715884105728,\"Bank string\":\"JPMorgan\"\x7d"

/-- A ledger holding the overdrawn account1 and account2 with balance 200. -/
def overdrawnLedger : Ledger :=
  { world := fun k =>
      if k = "account1" then some overdrawnRecord
      else if k = "account2" then some record2 else none
    endorsers := fun _ => none
    calls := [] }

/-! ## Object keys of the stored encoding

`json.Marshal` writes a struct as an object with one key per field, in declaration
order; the key comes from the `json` struct tag. The three definitions below follow
`encoding/json` (`parseTag`, `isValidTag`, and the fallback to the Go field name). -/

/-- Fields of `Account` in declaration order: the Go name and the text under the `json`
key of its struct tag, as written in the source. -/
def accountFields : List (String × String) :=
  [("ID", "ID"), ("Balance", "Balance float32"), ("Bank", "Bank string")]

/-- Name part of a `json` tag: the text before the first comma. -/
def tagName (tag : String) : String :=
  String.mk (tag.data.takeWhile fun c => c ≠ ',')

/-- Check `isValidTag` of `encoding/json`: the name is not empty and each character is a
letter, a digit, or one of the punctuation characters listed there, the blank among
them. Letters and digits are taken as the ASCII ones. -/
def isValidTag (name : String) : Bool :=
  name.data ≠ [] &&
    name.data.all fun c => "!#$%&()*+-./:;<=>?@[]^_\x7b|\x7d~ ".data.contains c || c.isAlphanum

/-- Object key written for a field: the tag name when it is valid, the Go name otherwise. -/
def jsonKey (field : String × String) : String :=
  if isValidTag (tagName field.2) then tagName field.2 else field.1

/-- Object keys of an encoded `Account`, in the order they are written. -/
def accountJsonKeys : List String :=
  accountFields.map jsonKey

/-! ## Evaluation lemmas -/

theorem guard_of_authorized {env : Env} {org : String}
    (hc : env.clientOrg = .ok org) (hp : env.peerOrg = .ok org) :
    getClientOrgID env = (org, none) ∧ verifyClientOrgMatchesPeerOrg env org = none := by
  simp [getClientOrgID, verifyClientOrgMatchesPeerOrg, hc, hp]

theorem guard_of_unauthorized {env : Env} (h : env.Unauthorized) :
    (∃ m, getClientOrgID env = ("", some (.authorization m))) ∨
    (∃ org m, getClientOrgID env = (org, none) ∧
      verifyClientOrgMatchesPeerOrg env org = some (.authorization m)) := by
  rcases h with ⟨e, he⟩ | ⟨org, hc, hp⟩
  · left; exact ⟨e, by simp [getClientOrgID, he]⟩
  · right
    refine ⟨org, ?_⟩
    cases hpo : env.peerOrg with
    | error e => exact ⟨e, by simp [getClientOrgID, verifyClientOrgMatchesPeerOrg, hc, hpo]⟩
    | ok p =>
      have hne : org ≠ p := by
        intro h; apply hp; rw [hpo, h]
      exact ⟨"client from org " ++ org ++ " is not authorized on a peer of org " ++ p,
        by simp [getClientOrgID, hc], by simp [verifyClientOrgMatchesPeerOrg, hpo, hne]⟩

theorem accountExists_of_authorized {env : Env} (h : env.Authorized) (id : String) (s : Ledger) :
    AccountExists env id s =
      match GetState env id s with
      | ((_, some err), s1) =>
        ((false, some (.text ("failed to read from world state: " ++ err))), s1)
      | ((none, none), s1) =>
        ((false, some (.text ("the account " ++ id ++ " does not exist"))), s1)
      | ((some _, none), s1) => ((true, none), s1) := by
  obtain ⟨org, hc, hp⟩ := h
  obtain ⟨h1, h2⟩ := guard_of_authorized hc hp
  simp only [AccountExists, h1, h2]

theorem accountExists_absent {env : Env} (h : env.Authorized) {id : String} {s : Ledger}
    (hget : env.getStateErr s id = none) (hw : s.world id = none) :
    AccountExists env id s =
      ((false, some (.text ("the account " ++ id ++ " does not exist"))),
        s.record (.getState id)) := by
  rw [accountExists_of_authorized h]
  simp [GetState, hget, hw]

theorem accountExists_present {env : Env} (h : env.Authorized) {id : String} {s : Ledger}
    {bs : Bytes} (hget : env.getStateErr s id = none) (hw : s.world id = some bs) :
    AccountExists env id s = ((true, none), s.record (.getState id)) := by
  rw [accountExists_of_authorized h]
  simp [GetState, hget, hw]

theorem accountExists_readFailure {env : Env} (h : env.Authorized) {id : String} {s : Ledger}
    {e : String} (hget : env.getStateErr s id = some e) :
    AccountExists env id s =
      ((false, some (.text ("failed to read from world state: " ++ e))),
        s.record (.getState id)) := by
  rw [accountExists_of_authorized h]
  simp [GetState, hget]

theorem readAccount_of_authorized {env : Env} (h : env.Authorized) (id : String) (s : Ledger) :
    ReadAccount env id s =
      match GetState env id s with
      | ((_, some err), s1) =>
        (.error (.text ("failed to read from world state: " ++ err)), s1)
      | ((none, none), s1) =>
        (.error (.text ("the account " ++ id ++ " does not exist")), s1)
      | ((some accountJSON, none), s1) =>
        match env.codec.unmarshal accountJSON with
        | .error e => (.error (.codec e), s1)
        | .ok account => (.ok account, s1) := by
  obtain ⟨org, hc, hp⟩ := h
  obtain ⟨h1, h2⟩ := guard_of_authorized hc hp
  simp only [ReadAccount, h1, h2]

theorem readAccount_absent {env : Env} (h : env.Authorized) {id : String} {s : Ledger}
    (hget : env.getStateErr s id = none) (hw : s.world id = none) :
    ReadAccount env id s =
      (.error (.text ("the account " ++ id ++ " does not exist")), s.record (.getState id)) := by
  rw [readAccount_of_authorized h]
  simp [GetState, hget, hw]

theorem readAccount_decodes {env : Env} (h : env.Authorized) {id : String} {s : Ledger}
    {bs : Bytes} {a : Account} (hget : env.getStateErr s id = none) (hw : s.world id = some bs)
    (hd : env.codec.unmarshal bs = .ok a) :
    ReadAccount env id s = (.ok a, s.record (.getState id)) := by
  rw [readAccount_of_authorized h]
  simp [GetState, hget, hw, hd]

theorem readAccount_undecodable {env : Env} (h : env.Authorized) {id : String} {s : Ledger}
    {bs : Bytes} {e : String} (hget : env.getStateErr s id = none) (hw : s.world id = some bs)
    (hd : env.codec.unmarshal bs = .error e) :
    ReadAccount env id s = (.error (.codec e), s.record (.getState id)) := by
  rw [readAccount_of_authorized h]
  simp [GetState, hget, hw, hd]

theorem readAccount_readFailure {env : Env} (h : env.Authorized) {id : String} {s : Ledger}
    {e : String} (hget : env.getStateErr s id = some e) :
    ReadAccount env id s =
      (.error (.text ("failed to read from world state: " ++ e)), s.record (.getState id)) := by
  rw [readAccount_of_authorized h]
  simp [GetState, hget]



theorem transfer_nonpositive {env : Env} (h : env.Authorized) (fromId toId : String)
    {amount : ℚ} (hamt : amount ≤ 0) (s : Ledger) :
    Transfer env fromId toId amount s = (some (.text "amount must be positive"), s) := by
  obtain ⟨org, hc, hp⟩ := h
  obtain ⟨h1, h2⟩ := guard_of_authorized hc hp
  simp only [Transfer, h1, h2, if_pos hamt]

theorem transfer_source_error {env : Env} (h : env.Authorized) (fromId toId : String)
    {amount : ℚ} (hamt : 0 < amount) {s s1 : Ledger} {e : Err}
    (hr : ReadAccount env fromId s = (.error e, s1)) :
    Transfer env fromId toId amount s = (some (.text "source account doesn't exist"), s1) := by
  obtain ⟨org, hc, hp⟩ := h
  obtain ⟨h1, h2⟩ := guard_of_authorized hc hp
  simp only [Transfer, h1, h2, if_neg (not_le.mpr hamt), hr]

theorem transfer_destination_error {env : Env} (h : env.Authorized) (fromId toId : String)
    {amount : ℚ} (hamt : 0 < amount) {s s1 s2 : Ledger} {a : Account} {e : Err}
    (hr1 : ReadAccount env fromId s = (.ok a, s1))
    (hr2 : ReadAccount env toId s1 = (.error e, s2)) :
    Transfer env fromId toId amount s =
      (some (.text "destination account doesn't exist"), s2) := by
  obtain ⟨org, hc, hp⟩ := h
  obtain ⟨h1, h2⟩ := guard_of_authorized hc hp
  simp only [Transfer, h1, h2, if_neg (not_le.mpr hamt), hr1, hr2]

/-- Ledger after a successful transfer that stored `fromJson` and then `toJson`. -/
theorem transfer_success {env : Env} (h : env.Authorized) (hr : env.ReadsSucceed)
    (hw : env.WritesSucceed) {fromId toId : String} {amount : ℚ} (hamt : 0 < amount)
    {s : Ledger} {bsFrom bsTo fromJson toJson : Bytes} {a b : Account}
    (hwa : s.world fromId = some bsFrom) (hda : env.codec.unmarshal bsFrom = .ok a)
    (hwb : s.world toId = some bsTo) (hdb : env.codec.unmarshal bsTo = .ok b)
    (hma : env.codec.marshal { a with Balance := a.Balance - amount } = .ok fromJson)
    (hmb : env.codec.marshal { b with Balance := b.Balance + amount } = .ok toJson) :
    Transfer env fromId toId amount s =
      (none,
        { world := fun k =>
            if k = toId then some toJson else if k = fromId then some fromJson else s.world k
          endorsers := s.endorsers
          calls := s.calls ++ [.getState fromId, .getState toId,
                               .putState fromId fromJson, .putState toId toJson] }) := by
  have hr1 := readAccount_decodes h (hr s fromId) hwa hda
  have hr2 : ReadAccount env toId (s.record (.getState fromId)) =
      (.ok b, (s.record (.getState fromId)).record (.getState toId)) :=
    readAccount_decodes h (hr _ toId) hwb hdb
  obtain ⟨org, hc, hp⟩ := h
  obtain ⟨h1, h2⟩ := guard_of_authorized hc hp
  simp only [Transfer, h1, h2, if_neg (not_le.mpr hamt), hr1, hr2, hma]
  simp only [PutState, hw.1, hmb, Ledger.record, List.append_assoc, List.singleton_append,
    List.cons_append, List.nil_append]


theorem createAccount_of_exists_error {env : Env} (h : env.Authorized) {id : String}
    (balance : ℚ) (bank : String) {s s1 : Ledger} {b : Bool} {e : Err}
    (hx : AccountExists env id s = ((b, some e), s1)) :
    CreateAccount env id balance bank s = (some e, s1) := by
  obtain ⟨org, hc, hp⟩ := h
  obtain ⟨h1, h2⟩ := guard_of_authorized hc hp
  simp only [CreateAccount, h1, h2, hx]

theorem createAccount_of_exists_true {env : Env} (h : env.Authorized) {id : String}
    (balance : ℚ) (bank : String) {s s1 : Ledger}
    (hx : AccountExists env id s = ((true, none), s1)) :
    CreateAccount env id balance bank s =
      (some (.text ("the account " ++ id ++ " already exists")), s1) := by
  obtain ⟨org, hc, hp⟩ := h
  obtain ⟨h1, h2⟩ := guard_of_authorized hc hp
  simp only [CreateAccount, h1, h2, hx]

theorem deleteAccount_of_exists_error {env : Env} (h : env.Authorized) {id : String}
    {s s1 : Ledger} {b : Bool} {e : Err}
    (hx : AccountExists env id s = ((b, some e), s1)) :
    DeleteAccount env id s = (some e, s1) := by
  obtain ⟨org, hc, hp⟩ := h
  obtain ⟨h1, h2⟩ := guard_of_authorized hc hp
  simp only [DeleteAccount, h1, h2, hx]

theorem deleteAccount_of_exists_true {env : Env} (h : env.Authorized) {id : String}
    {s s1 : Ledger} (hx : AccountExists env id s = ((true, none), s1)) :
    DeleteAccount env id s =
      match DelState env id s1 with
      | (some e, s2) => (some (.text e), s2)
      | (none, s2) => (none, s2) := by
  obtain ⟨org, hc, hp⟩ := h
  obtain ⟨h1, h2⟩ := guard_of_authorized hc hp
  simp only [DeleteAccount, h1, h2, hx]

theorem org1Env_authorized : org1Env.Authorized := ⟨"Org1MSP", rfl, rfl⟩

theorem unreadableEnv_authorized : unreadableEnv.Authorized := ⟨"Org1MSP", rfl, rfl⟩

theorem org1Env_readsSucceed : org1Env.ReadsSucceed := fun _ _ => rfl

theorem org1Env_writesSucceed : org1Env.WritesSucceed := ⟨fun _ _ _ => rfl, fun _ _ => rfl⟩

theorem readAccount_absent_error {env : Env} (h : env.Authorized) {id : String} {s : Ledger}
    (hw : s.world id = none) :
    ∃ e, ReadAccount env id s = (.error e, s.record (.getState id)) := by
  cases hg : env.getStateErr s id with
  | none => exact ⟨_, readAccount_absent h hg hw⟩
  | some e => exact ⟨_, readAccount_readFailure h hg⟩

theorem org2Env_unauthorized : org2Env.Unauthorized := by
  refine Or.inr ⟨"Org2MSP", rfl, ?_⟩
  show (Except.ok "Org1MSP" : Except String String) ≠ .ok "Org2MSP"
  intro h
  injection h with h
  revert h
  decide

theorem wireCodec_roundTrips_whole (id bank : String) (n : ℕ)
    (h : wireUnmarshal ("\x7b\"ID\":\"" ++ id ++ "\",\"Balance float32\":" ++ showInt (n : ℤ)
          ++ ",\"Bank string\":\"" ++ bank ++ "\"\x7d") =
        .ok { ID := id, Balance := (n : ℚ), Bank := bank }) :
    wireCodec.RoundTrips { ID := id, Balance := (n : ℚ), Bank := bank } := by
  refine ⟨_, ?_, h⟩
  simp [wireCodec, wireMarshal]

/-! ## Account creation and existence -/

/-- C1: on the code the round trip does not hold. For an authorized caller, a platform
whose reads succeed and an id with no record, `CreateAccount` returns the not-found error
of `AccountExists`, stores nothing, and a following `ReadAccount` of that id fails with
the not-found error. -/
theorem createAccount_absent_id_fails (env : Env) (id : String) (balance : ℚ) (bank : String)
    (s : Ledger) (hauth : env.Authorized) (hreads : env.ReadsSucceed)
    (habsent : s.world id = none) :
    ∃ s1, CreateAccount env id balance bank s =
        (some (.text ("the account " ++ id ++ " does not exist")), s1) ∧
      s1.world = s.world ∧
      s1.calls = s.calls ++ [.getState id] ∧
      (ReadAccount env id s1).1 = .error (.text ("the account " ++ id ++ " does not exist")) := by
  refine ⟨s.record (.getState id), ?_, rfl, rfl, ?_⟩
  · exact createAccount_of_exists_error hauth balance bank
      (accountExists_absent hauth (hreads s id) habsent)
  · have hread : ReadAccount env id (s.record (.getState id)) =
        (.error (.text ("the account " ++ id ++ " does not exist")),
          (s.record (.getState id)).record (.getState id)) :=
      readAccount_absent hauth (hreads _ id) habsent
    rw [hread]

/-- Instance of C1 at account9 on the empty ledger. -/
theorem createAccount_absent_id_fails_witness :
    org1Env.Authorized ∧ org1Env.ReadsSucceed ∧ emptyLedger.world "account9" = none ∧
    ∃ s1, CreateAccount org1Env "account9" 10 "Bank" emptyLedger =
        (some (.text ("the account " ++ "account9" ++ " does not exist")), s1) ∧
      s1.world = emptyLedger.world ∧
      s1.calls = emptyLedger.calls ++ [.getState "account9"] ∧
      (ReadAccount org1Env "account9" s1).1 =
        .error (.text ("the account " ++ "account9" ++ " does not exist")) :=
  ⟨org1Env_authorized, org1Env_readsSucceed, rfl,
    createAccount_absent_id_fails org1Env "account9" 10 "Bank" emptyLedger
      org1Env_authorized org1Env_readsSucceed rfl⟩

/-- C2: on the code absence is not success-with-false. For an authorized caller whose read
does not fail and an id with no record, `AccountExists` returns false together with the
not-found error. -/
theorem accountExists_absent_is_error (env : Env) (id : String) (s : Ledger)
    (hauth : env.Authorized) (hread : env.getStateErr s id = none)
    (habsent : s.world id = none) :
    (AccountExists env id s).1 =
        (false, some (.text ("the account " ++ id ++ " does not exist"))) ∧
      (AccountExists env id s).1.2 ≠ none := by
  rw [accountExists_absent hauth hread habsent]
  exact ⟨rfl, by simp⟩

/-- Instance of C2 at account9 on the empty ledger. -/
theorem accountExists_absent_is_error_witness :
    org1Env.Authorized ∧ org1Env.getStateErr emptyLedger "account9" = none ∧
    emptyLedger.world "account9" = none ∧
    (AccountExists org1Env "account9" emptyLedger).1 =
        (false, some (.text ("the account " ++ "account9" ++ " does not exist"))) ∧
      (AccountExists org1Env "account9" emptyLedger).1.2 ≠ none :=
  ⟨org1Env_authorized, rfl, rfl,
    accountExists_absent_is_error org1Env "account9" emptyLedger org1Env_authorized rfl rfl⟩


/-! ## Transfer -/

/-- C3: for an authorized caller on a platform with no storage failure, two distinct keys
holding decodable records `a` and `b`, and a positive amount, `Transfer` succeeds; reading
the two keys afterwards gives records whose balances are `a.Balance - amount` and
`b.Balance + amount`, so their sum is the sum before, and whose `ID` and `Bank` are those of
`a` and `b`. The codec is assumed to encode the two updated records and decode them back. -/
theorem transfer_moves_amount (env : Env) (s : Ledger) (fromId toId : String) (amount : ℚ)
    (bsFrom bsTo : Bytes) (a b : Account)
    (hauth : env.Authorized) (hreads : env.ReadsSucceed) (hwrites : env.WritesSucceed)
    (hne : fromId ≠ toId) (hamt : 0 < amount)
    (hwa : s.world fromId = some bsFrom) (hda : env.codec.unmarshal bsFrom = .ok a)
    (hwb : s.world toId = some bsTo) (hdb : env.codec.unmarshal bsTo = .ok b)
    (hca : env.codec.RoundTrips { a with Balance := a.Balance - amount })
    (hcb : env.codec.RoundTrips { b with Balance := b.Balance + amount }) :
    ∃ s1 a1 b1, Transfer env fromId toId amount s = (none, s1) ∧
      (ReadAccount env fromId s1).1 = .ok a1 ∧ (ReadAccount env toId s1).1 = .ok b1 ∧
      a1.Balance = a.Balance - amount ∧ b1.Balance = b.Balance + amount ∧
      a1.Balance + b1.Balance = a.Balance + b.Balance ∧
      a1.ID = a.ID ∧ a1.Bank = a.Bank ∧ b1.ID = b.ID ∧ b1.Bank = b.Bank := by
  obtain ⟨fromJson, hma, hua⟩ := hca
  obtain ⟨toJson, hmb, hub⟩ := hcb
  refine ⟨_, { a with Balance := a.Balance - amount }, { b with Balance := b.Balance + amount },
    transfer_success hauth hreads hwrites hamt hwa hda hwb hdb hma hmb,
    ?_, ?_, rfl, rfl, ?_, rfl, rfl, rfl, rfl⟩
  · have hw1 : (if fromId = toId then some toJson else
        if fromId = fromId then some fromJson else s.world fromId) = some fromJson := by
      simp [hne]
    rw [readAccount_decodes hauth (hreads _ fromId) hw1 hua]
  · have hw2 : (if toId = toId then some toJson else
        if toId = fromId then some fromJson else s.world toId) = some toJson := by
      simp
    rw [readAccount_decodes hauth (hreads _ toId) hw2 hub]
  · show a.Balance - amount + (b.Balance + amount) = a.Balance + b.Balance
    ring


/-- Instance of C3: 50 from account1 (100) to account2 (200). -/
theorem transfer_moves_amount_witness :
    org1Env.Authorized ∧ org1Env.ReadsSucceed ∧ org1Env.WritesSucceed ∧
    "account1" ≠ "account2" ∧ (0 : ℚ) < 50 ∧
    twoAccounts.world "account1" = some record1 ∧
    org1Env.codec.unmarshal record1 = .ok ⟨"account1", 100, "JPMorgan"⟩ ∧
    twoAccounts.world "account2" = some record2 ∧
    org1Env.codec.unmarshal record2 = .ok ⟨"account2", 200, "BofA"⟩ ∧
    ∃ s1 a1 b1, Transfer org1Env "account1" "account2" 50 twoAccounts = (none, s1) ∧
      (ReadAccount org1Env "account1" s1).1 = .ok a1 ∧
      (ReadAccount org1Env "account2" s1).1 = .ok b1 ∧
      a1.Balance = 100 - 50 ∧ b1.Balance = 200 + 50 ∧
      a1.Balance + b1.Balance = 100 + 200 ∧
      a1.ID = "account1" ∧ a1.Bank = "JPMorgan" ∧ b1.ID = "account2" ∧ b1.Bank = "BofA" :=
  ⟨org1Env_authorized, org1Env_readsSucceed, org1Env_writesSucceed, by decide, by norm_num,
    rfl, rfl, rfl, rfl,
    transfer_moves_amount org1Env twoAccounts "account1" "account2" 50 record1 record2
      ⟨"account1", 100, "JPMorgan"⟩ ⟨"account2", 200, "BofA"⟩
      org1Env_authorized org1Env_readsSucceed org1Env_writesSucceed (by decide) (by norm_num)
      rfl rfl rfl rfl
      (by
        have h : ((100 : ℚ) - 50) = ((50 : ℕ) : ℚ) := by norm_num
        show wireCodec.RoundTrips ⟨"account1", (100 : ℚ) - 50, "JPMorgan"⟩
        rw [h]
        exact wireCodec_roundTrips_whole "account1" "JPMorgan" 50 rfl)
      (by
        have h : ((200 : ℚ) + 50) = ((250 : ℕ) : ℚ) := by norm_num
        show wireCodec.RoundTrips ⟨"account2", (200 : ℚ) + 50, "BofA"⟩
        rw [h]
        exact wireCodec_roundTrips_whole "account2" "BofA" 250 rfl)⟩


/-- C4: on the code a self-transfer is not a no-op. For an authorized caller on a platform
with no storage failure, a key holding a decodable record `a` and a positive amount,
`Transfer(id, id, amount)` succeeds and the record read afterwards has balance
`a.Balance + amount`, which is not `a.Balance`: the debit written first is overwritten by
the credit computed from the second, independent read. -/
theorem transfer_to_self_credits (env : Env) (s : Ledger) (id : String) (amount : ℚ)
    (bs debitJson : Bytes) (a : Account)
    (hauth : env.Authorized) (hreads : env.ReadsSucceed) (hwrites : env.WritesSucceed)
    (hamt : 0 < amount)
    (hw : s.world id = some bs) (hd : env.codec.unmarshal bs = .ok a)
    (hdebit : env.codec.marshal { a with Balance := a.Balance - amount } = .ok debitJson)
    (hcredit : env.codec.RoundTrips { a with Balance := a.Balance + amount }) :
    ∃ s1 a1, Transfer env id id amount s = (none, s1) ∧
      (ReadAccount env id s1).1 = .ok a1 ∧
      a1.Balance = a.Balance + amount ∧ a1.Balance ≠ a.Balance := by
  obtain ⟨creditJson, hmb, hub⟩ := hcredit
  refine ⟨_, { a with Balance := a.Balance + amount },
    transfer_success hauth hreads hwrites hamt hw hd hw hd hdebit hmb, ?_, rfl, ?_⟩
  · have hw1 : (if id = id then some creditJson else
        if id = id then some debitJson else s.world id) = some creditJson := by
      simp
    rw [readAccount_decodes hauth (hreads _ id) hw1 hub]
  · show a.Balance + amount ≠ a.Balance
    intro h
    linarith

/-- Instance of C4: account1 holds 100 and sends 30 to itself; it then holds 130. -/
theorem transfer_to_self_credits_witness :
    org1Env.Authorized ∧ org1Env.ReadsSucceed ∧ org1Env.WritesSucceed ∧ (0 : ℚ) < 30 ∧
    twoAccounts.world "account1" = some record1 ∧
    org1Env.codec.unmarshal record1 = .ok ⟨"account1", 100, "JPMorgan"⟩ ∧
    ∃ s1 a1, Transfer org1Env "account1" "account1" 30 twoAccounts = (none, s1) ∧
      (ReadAccount org1Env "account1" s1).1 = .ok a1 ∧
      a1.Balance = 100 + 30 ∧ a1.Balance ≠ 100 :=
  ⟨org1Env_authorized, org1Env_readsSucceed, org1Env_writesSucceed, by norm_num, rfl, rfl,
    transfer_to_self_credits org1Env twoAccounts "account1" 30 record1
      "\x7b\"ID\":\"account1\",\"Balance float32\":70,\"Bank string\":\"JPMorgan\"\x7d"
      ⟨"account1", 100, "JPMorgan"⟩
      org1Env_authorized org1Env_readsSucceed org1Env_writesSucceed (by norm_num) rfl rfl
      (by
        have h : ((100 : ℚ) - 30) = ((70 : ℕ) : ℚ) := by norm_num
        show wireMarshal ⟨"account1", (100 : ℚ) - 30, "JPMorgan"⟩ = _
        rw [h]
        simp [wireMarshal]
        rfl)
      (by
        have h : ((100 : ℚ) + 30) = ((130 : ℕ) : ℚ) := by norm_num
        show wireCodec.RoundTrips ⟨"account1", (100 : ℚ) + 30, "JPMorgan"⟩
        rw [h]
        exact wireCodec_roundTrips_whole "account1" "JPMorgan" 130 rfl)⟩

/-- C6: for an authorized caller, any ledger, any two ids and any amount that is not
positive, `Transfer` returns the error "amount must be positive" and the ledger it leaves
is the ledger it was given: no record changes and no stub call is made. -/
theorem transfer_rejects_nonpositive_amount (env : Env) (s : Ledger) (fromId toId : String)
    (amount : ℚ) (hauth : env.Authorized) (hamt : amount ≤ 0) :
    Transfer env fromId toId amount s = (some (.text "amount must be positive"), s) :=
  transfer_nonpositive hauth fromId toId hamt s

/-- Instance of C6: amount 0 between two keys of the empty ledger. -/
theorem transfer_rejects_nonpositive_amount_witness :
    org1Env.Authorized ∧ (0 : ℚ) ≤ 0 ∧
    Transfer org1Env "account8" "account9" 0 emptyLedger =
      (some (.text "amount must be positive"), emptyLedger) :=
  ⟨org1Env_authorized, le_refl 0,
    transfer_rejects_nonpositive_amount org1Env emptyLedger "account8" "account9" 0
      org1Env_authorized (le_refl 0)⟩


/-- C7, counterexample: with a positive amount, an authorized caller, a source key that
holds a record and a destination key that holds none, `Transfer` reports the source as
missing, not the destination, when the source record does not decode, and also when the
read of the source fails. -/
theorem transfer_present_source_reported_missing :
    (junkLedger.world "account1" = some "junk" ∧ junkLedger.world "account9" = none ∧
      (Transfer org1Env "account1" "account9" 5 junkLedger).1 =
        some (.text "source account doesn't exist") ∧
      (Transfer org1Env "account1" "account9" 5 junkLedger).1 ≠
        some (.text "destination account doesn't exist")) ∧
    (twoAccounts.world "account1" = some record1 ∧ twoAccounts.world "account9" = none ∧
      (Transfer unreadableEnv "account1" "account9" 5 twoAccounts).1 =
        some (.text "source account doesn't exist") ∧
      (Transfer unreadableEnv "account1" "account9" 5 twoAccounts).1 ≠
        some (.text "destination account doesn't exist")) := by
  have h5 : (0 : ℚ) < 5 := by norm_num
  have hjunk : org1Env.codec.unmarshal "junk" = .error "invalid character" := rfl
  have h1 := transfer_source_error org1Env_authorized "account1" "account9" h5
    (readAccount_undecodable org1Env_authorized (org1Env_readsSucceed junkLedger "account1")
      rfl hjunk)
  have hfail : unreadableEnv.getStateErr twoAccounts "account1" = some "ledger unavailable" :=
    rfl
  have h2 := transfer_source_error unreadableEnv_authorized "account1" "account9" h5
    (readAccount_readFailure unreadableEnv_authorized hfail)
  refine ⟨⟨rfl, rfl, ?_, ?_⟩, ⟨rfl, rfl, ?_, ?_⟩⟩
  · rw [h1]
  · rw [h1]; decide
  · rw [h2]
  · rw [h2]; decide

/-- C7, amended: for an authorized caller and a positive amount, (1) if `fromId` has no
record, `Transfer` fails with "source account doesn't exist"; (2) if `fromId` holds a
decodable record that is read without storage failure and `toId` has no record, it fails
with "destination account doesn't exist". In both cases the world state and the
endorsement metadata are unchanged and the only stub calls made are the reads. -/
theorem transfer_missing_account_rejected (env : Env) (s : Ledger) (fromId toId : String)
    (amount : ℚ) (hauth : env.Authorized) (hamt : 0 < amount) :
    (s.world fromId = none →
      ∃ s1, Transfer env fromId toId amount s =
          (some (.text "source account doesn't exist"), s1) ∧
        s1.world = s.world ∧ s1.endorsers = s.endorsers ∧
        s1.calls = s.calls ++ [.getState fromId]) ∧
    (∀ bs a, env.getStateErr s fromId = none → s.world fromId = some bs →
      env.codec.unmarshal bs = .ok a → s.world toId = none →
      ∃ s1, Transfer env fromId toId amount s =
          (some (.text "destination account doesn't exist"), s1) ∧
        s1.world = s.world ∧ s1.endorsers = s.endorsers ∧
        s1.calls = s.calls ++ [.getState fromId, .getState toId]) := by
  constructor
  · intro hw
    obtain ⟨e, he⟩ := readAccount_absent_error hauth hw
    exact ⟨_, transfer_source_error hauth fromId toId hamt he, rfl, rfl, rfl⟩
  · intro bs a hg hw hd hwt
    have hr1 := readAccount_decodes hauth hg hw hd
    have hwt1 : (s.record (.getState fromId)).world toId = none := hwt
    obtain ⟨e, he⟩ := readAccount_absent_error hauth hwt1
    refine ⟨_, transfer_destination_error hauth fromId toId hamt hr1 he, rfl, rfl, ?_⟩
    simp [Ledger.record]

/-- Instance of C7, amended: from an absent key, and from account1 to an absent key. -/
theorem transfer_missing_account_rejected_witness :
    org1Env.Authorized ∧ (0 : ℚ) < 5 ∧
    (twoAccounts.world "account8" = none ∧
      ∃ s1, Transfer org1Env "account8" "account2" 5 twoAccounts =
          (some (.text "source account doesn't exist"), s1) ∧
        s1.world = twoAccounts.world ∧ s1.endorsers = twoAccounts.endorsers ∧
        s1.calls = twoAccounts.calls ++ [.getState "account8"]) ∧
    (org1Env.getStateErr twoAccounts "account1" = none ∧
      twoAccounts.world "account1" = some record1 ∧
      org1Env.codec.unmarshal record1 = .ok ⟨"account1", 100, "JPMorgan"⟩ ∧
      twoAccounts.world "account9" = none ∧
      ∃ s1, Transfer org1Env "account1" "account9" 5 twoAccounts =
          (some (.text "destination account doesn't exist"), s1) ∧
        s1.world = twoAccounts.world ∧ s1.endorsers = twoAccounts.endorsers ∧
        s1.calls = twoAccounts.calls ++ [.getState "account1", .getState "account9"]) :=
  ⟨org1Env_authorized, by norm_num,
    ⟨rfl, (transfer_missing_account_rejected org1Env twoAccounts "account8" "account2" 5
      org1Env_authorized (by norm_num)).1 rfl⟩,
    ⟨rfl, rfl, rfl, rfl,
      (transfer_missing_account_rejected org1Env twoAccounts "account1" "account9" 5
        org1Env_authorized (by norm_num)).2 record1 ⟨"account1", 100, "JPMorgan"⟩
        rfl rfl rfl rfl⟩⟩


/-! ## Authorization -/

/-- C5: when the client organisation cannot be resolved or is not the peer's organisation,
each of `AccountExists`, `ReadAccount`, `CreateAccount`, `DeleteAccount` and `Transfer`
returns, for every argument tuple, one and the same authorization error, and the ledger it
leaves is the ledger it was given: same world state, same endorsement metadata, and no
stub call (no `GetState`, `PutState` or `DelState`) recorded. -/
theorem unauthorized_call_leaves_ledger (env : Env) (s : Ledger) (hun : env.Unauthorized) :
    ∃ m,
      (∀ id, AccountExists env id s = ((false, some (.authorization m)), s)) ∧
      (∀ id, ReadAccount env id s = (.error (.authorization m), s)) ∧
      (∀ id balance bank, CreateAccount env id balance bank s = (some (.authorization m), s)) ∧
      (∀ id, DeleteAccount env id s = (some (.authorization m), s)) ∧
      (∀ fromId toId amount,
        Transfer env fromId toId amount s = (some (.authorization m), s)) := by
  rcases guard_of_unauthorized hun with ⟨m, h1⟩ | ⟨org, m, h1, h2⟩
  · refine ⟨m, ?_, ?_, ?_, ?_, ?_⟩ <;> intros <;>
      simp only [AccountExists, ReadAccount, CreateAccount, DeleteAccount, Transfer, h1]
  · refine ⟨m, ?_, ?_, ?_, ?_, ?_⟩ <;> intros <;>
      simp only [AccountExists, ReadAccount, CreateAccount, DeleteAccount, Transfer, h1, h2]

/-- Instance of C5: a client of Org2 on a peer of Org1, on a ledger with two accounts. -/
theorem unauthorized_call_leaves_ledger_witness :
    org2Env.Unauthorized ∧
    ∃ m,
      (∀ id, AccountExists org2Env id twoAccounts =
        ((false, some (.authorization m)), twoAccounts)) ∧
      (∀ id, ReadAccount org2Env id twoAccounts = (.error (.authorization m), twoAccounts)) ∧
      (∀ id balance bank, CreateAccount org2Env id balance bank twoAccounts =
        (some (.authorization m), twoAccounts)) ∧
      (∀ id, DeleteAccount org2Env id twoAccounts = (some (.authorization m), twoAccounts)) ∧
      (∀ fromId toId amount, Transfer org2Env fromId toId amount twoAccounts =
        (some (.authorization m), twoAccounts)) :=
  ⟨org2Env_unauthorized, unauthorized_call_leaves_ledger org2Env twoAccounts org2Env_unauthorized⟩

/-! ## Creation on an existing id, deletion -/

/-- C8, counterexample: account1 has a record and the caller is authorized, but the read
of the world state fails; `CreateAccount` then returns the read failure, not the
already-exists error. -/
theorem createAccount_existing_id_read_failure :
    twoAccounts.world "account1" = some record1 ∧
    (CreateAccount unreadableEnv "account1" 10 "Bank" twoAccounts).1 =
      some (.text "failed to read from world state: ledger unavailable") ∧
    (CreateAccount unreadableEnv "account1" 10 "Bank" twoAccounts).1 ≠
      some (.text ("the account " ++ "account1" ++ " already exists")) := by
  have hfail : unreadableEnv.getStateErr twoAccounts "account1" = some "ledger unavailable" :=
    rfl
  have h := createAccount_of_exists_error unreadableEnv_authorized 10 "Bank"
    (accountExists_readFailure unreadableEnv_authorized hfail)
  refine ⟨rfl, ?_, ?_⟩
  · rw [h]; rfl
  · rw [h]; decide

/-- C8, amended: for an authorized caller whose read of the world state does not fail and
an id that already has a record, `CreateAccount` fails with "the account <id> already
exists"; the world state (the record at id and at every other key) and the endorsement
metadata are unchanged, and the only stub call made is the read of id: no `PutState`, no
endorsement call. -/
theorem createAccount_existing_id_rejected (env : Env) (s : Ledger) (id : String)
    (balance : ℚ) (bank : String) (bs : Bytes)
    (hauth : env.Authorized) (hread : env.getStateErr s id = none)
    (hw : s.world id = some bs) :
    ∃ s1, CreateAccount env id balance bank s =
        (some (.text ("the account " ++ id ++ " already exists")), s1) ∧
      s1.world = s.world ∧ s1.endorsers = s.endorsers ∧
      s1.calls = s.calls ++ [.getState id] :=
  ⟨_, createAccount_of_exists_true hauth balance bank (accountExists_present hauth hread hw),
    rfl, rfl, rfl⟩

/-- Instance of C8, amended: account1 created again. -/
theorem createAccount_existing_id_rejected_witness :
    org1Env.Authorized ∧ org1Env.getStateErr twoAccounts "account1" = none ∧
    twoAccounts.world "account1" = some record1 ∧
    ∃ s1, CreateAccount org1Env "account1" 10 "Bank" twoAccounts =
        (some (.text ("the account " ++ "account1" ++ " already exists")), s1) ∧
      s1.world = twoAccounts.world ∧ s1.endorsers = twoAccounts.endorsers ∧
      s1.calls = twoAccounts.calls ++ [.getState "account1"] :=
  ⟨org1Env_authorized, rfl, rfl,
    createAccount_existing_id_rejected org1Env twoAccounts "account1" 10 "Bank" record1
      org1Env_authorized rfl rfl⟩

/-- C9: on the code the follow-up check does not yield false. For an authorized caller on
a platform with no storage failure and an id that has a record, `DeleteAccount` succeeds,
afterwards id has no record and every other key holds what it held; but the following
`AccountExists` of id fails with the not-found error instead of returning false without
an error. -/
theorem deleteAccount_removes_record (env : Env) (s : Ledger) (id : String) (bs : Bytes)
    (hauth : env.Authorized) (hreads : env.ReadsSucceed) (hwrites : env.WritesSucceed)
    (hw : s.world id = some bs) :
    ∃ s1, DeleteAccount env id s = (none, s1) ∧
      s1.world id = none ∧
      (∀ k, k ≠ id → s1.world k = s.world k) ∧
      (AccountExists env id s1).1 =
        (false, some (.text ("the account " ++ id ++ " does not exist"))) ∧
      (AccountExists env id s1).1 ≠ (false, none) := by
  have hdel := deleteAccount_of_exists_true hauth (accountExists_present hauth (hreads s id) hw)
  simp only [DelState, hwrites.2] at hdel
  refine ⟨_, hdel, by simp, fun k hk => by simp [hk, Ledger.record], ?_⟩
  rw [accountExists_absent hauth (hreads _ id) (by simp)]
  exact ⟨rfl, by simp⟩

/-- Instance of C9: account1 deleted from a ledger with two accounts. -/
theorem deleteAccount_removes_record_witness :
    org1Env.Authorized ∧ org1Env.ReadsSucceed ∧ org1Env.WritesSucceed ∧
    twoAccounts.world "account1" = some record1 ∧
    ∃ s1, DeleteAccount org1Env "account1" twoAccounts = (none, s1) ∧
      s1.world "account1" = none ∧
      (∀ k, k ≠ "account1" → s1.world k = twoAccounts.world k) ∧
      (AccountExists org1Env "account1" s1).1 =
        (false, some (.text ("the account " ++ "account1" ++ " does not exist"))) ∧
      (AccountExists org1Env "account1" s1).1 ≠ (false, none) :=
  ⟨org1Env_authorized, org1Env_readsSucceed, org1Env_writesSucceed, rfl,
    deleteAccount_removes_record org1Env twoAccounts "account1" record1
      org1Env_authorized org1Env_readsSucceed org1Env_writesSucceed rfl⟩

/-- C10, counterexample: account9 has no record and the caller is authorized, but the read
of the world state fails; `DeleteAccount` then returns the read failure, not the not-found
error. -/
theorem deleteAccount_absent_id_read_failure :
    emptyLedger.world "account9" = none ∧
    (DeleteAccount unreadableEnv "account9" emptyLedger).1 =
      some (.text "failed to read from world state: ledger unavailable") ∧
    (DeleteAccount unreadableEnv "account9" emptyLedger).1 ≠
      some (.text ("the account " ++ "account9" ++ " does not exist")) := by
  have hfail : unreadableEnv.getStateErr emptyLedger "account9" = some "ledger unavailable" :=
    rfl
  have h := deleteAccount_of_exists_error unreadableEnv_authorized
    (accountExists_readFailure unreadableEnv_authorized hfail)
  refine ⟨rfl, ?_, ?_⟩
  · rw [h]; rfl
  · rw [h]; decide

/-- C10, amended: for an authorized caller whose read of the world state does not fail and
an id that has no record, `DeleteAccount` fails with "the account <id> does not exist";
the world state and the endorsement metadata are unchanged and the only stub call made is
the read of id: no `DelState`. -/
theorem deleteAccount_absent_id_rejected (env : Env) (s : Ledger) (id : String)
    (hauth : env.Authorized) (hread : env.getStateErr s id = none)
    (hw : s.world id = none) :
    ∃ s1, DeleteAccount env id s =
        (some (.text ("the account " ++ id ++ " does not exist")), s1) ∧
      s1.world = s.world ∧ s1.endorsers = s.endorsers ∧
      s1.calls = s.calls ++ [.getState id] :=
  ⟨_, deleteAccount_of_exists_error hauth (accountExists_absent hauth hread hw), rfl, rfl, rfl⟩

/-- Instance of C10, amended: account9 deleted from the empty ledger. -/
theorem deleteAccount_absent_id_rejected_witness :
    org1Env.Authorized ∧ org1Env.getStateErr emptyLedger "account9" = none ∧
    emptyLedger.world "account9" = none ∧
    ∃ s1, DeleteAccount org1Env "account9" emptyLedger =
        (some (.text ("the account " ++ "account9" ++ " does not exist")), s1) ∧
      s1.world = emptyLedger.world ∧ s1.endorsers = emptyLedger.endorsers ∧
      s1.calls = emptyLedger.calls ++ [.getState "account9"] :=
  ⟨org1Env_authorized, rfl, rfl,
    deleteAccount_absent_id_rejected org1Env emptyLedger "account9" org1Env_authorized rfl rfl⟩

/-! ## Reading -/

/-- C11: for an authorized caller whose read of the world state does not fail,
`ReadAccount` fails with "the account <id> does not exist" exactly when id has no record,
fails with the decoder's error exactly when id has a record that does not decode, and
returns an account exactly when id has a record that decodes to that account. -/
theorem readAccount_outcomes (env : Env) (id : String) (s : Ledger)
    (hauth : env.Authorized) (hread : env.getStateErr s id = none) :
    ((ReadAccount env id s).1 = .error (.text ("the account " ++ id ++ " does not exist")) ↔
      s.world id = none) ∧
    (∀ e, (ReadAccount env id s).1 = .error (.codec e) ↔
      ∃ bs, s.world id = some bs ∧ env.codec.unmarshal bs = .error e) ∧
    (∀ a, (ReadAccount env id s).1 = .ok a ↔
      ∃ bs, s.world id = some bs ∧ env.codec.unmarshal bs = .ok a) := by
  cases hw : s.world id with
  | none =>
    rw [readAccount_absent hauth hread hw]
    simp
  | some bs =>
    cases hd : env.codec.unmarshal bs with
    | error e =>
      rw [readAccount_undecodable hauth hread hw hd]
      simp [hd]
    | ok a =>
      rw [readAccount_decodes hauth hread hw hd]
      simp [hd]

/-- Instance of C11: account1 of a ledger with two accounts. -/
theorem readAccount_outcomes_witness :
    org1Env.Authorized ∧ org1Env.getStateErr twoAccounts "account1" = none ∧
    ((ReadAccount org1Env "account1" twoAccounts).1 =
        .error (.text ("the account " ++ "account1" ++ " does not exist")) ↔
      twoAccounts.world "account1" = none) ∧
    (∀ e, (ReadAccount org1Env "account1" twoAccounts).1 = .error (.codec e) ↔
      ∃ bs, twoAccounts.world "account1" = some bs ∧ org1Env.codec.unmarshal bs = .error e) ∧
    (∀ a, (ReadAccount org1Env "account1" twoAccounts).1 = .ok a ↔
      ∃ bs, twoAccounts.world "account1" = some bs ∧ org1Env.codec.unmarshal bs = .ok a) :=
  ⟨org1Env_authorized, rfl,
    readAccount_outcomes org1Env "account1" twoAccounts org1Env_authorized rfl⟩

/-! ## Seeding -/

theorem wireCodec_roundTrips_seed (id bank : String) (n : ℕ) [n.AtLeastTwo]
    (h : wireUnmarshal ("\x7b\"ID\":\"" ++ id ++ "\",\"Balance float32\":" ++ showInt (n : ℤ)
          ++ ",\"Bank string\":\"" ++ bank ++ "\"\x7d") =
        .ok { ID := id, Balance := (n : ℚ), Bank := bank }) :
    wireCodec.RoundTrips { ID := id, Balance := (OfNat.ofNat n : ℚ), Bank := bank } := by
  rw [← Nat.cast_ofNat]
  exact wireCodec_roundTrips_whole id bank n h


theorem putState_of_writesSucceed {env : Env} (hw : env.WritesSucceed) (key : String)
    (value : Bytes) (s : Ledger) :
    PutState env key value s =
      (none, { world := fun k => if k = key then some value else s.world k
               endorsers := s.endorsers
               calls := s.calls ++ [.putState key value] }) := by
  simp only [PutState, hw.1, Ledger.record]

theorem putAccounts_world_frame (env : Env) (accounts : List Account) (s : Ledger) (k : String)
    (hk : ∀ a ∈ accounts, a.ID ≠ k) :
    (putAccounts env accounts s).2.world k = s.world k := by
  induction accounts generalizing s with
  | nil => rfl
  | cons a rest ih =>
    have hrest : ∀ b ∈ rest, b.ID ≠ k := fun b hb => hk b (List.mem_cons_of_mem a hb)
    have ha : k ≠ a.ID := fun h => hk a (List.mem_cons_self a rest) h.symm
    simp only [putAccounts]
    cases hm : env.codec.marshal a with
    | error e => rfl
    | ok j =>
      simp only [PutState]
      cases hp : env.putStateErr s a.ID j with
      | some e => rfl
      | none =>
        simp only []
        rw [ih _ hrest]
        simp [ha]

theorem putAccounts_endorsers (env : Env) (accounts : List Account) (s : Ledger) :
    (putAccounts env accounts s).2.endorsers = s.endorsers := by
  induction accounts generalizing s with
  | nil => rfl
  | cons a rest ih =>
    simp only [putAccounts]
    cases hm : env.codec.marshal a with
    | error e => rfl
    | ok j =>
      simp only [PutState]
      cases hp : env.putStateErr s a.ID j with
      | some e => rfl
      | none =>
        simp only []
        rw [ih]
        rfl

theorem putAccounts_stored (env : Env) (accounts : List Account) (s : Ledger)
    (hok : (putAccounts env accounts s).1 = none)
    (hnodup : (accounts.map Account.ID).Nodup) :
    ∀ a ∈ accounts, ∃ j, env.codec.marshal a = .ok j ∧
      (putAccounts env accounts s).2.world a.ID = some j := by
  induction accounts generalizing s with
  | nil => intro a ha; cases ha
  | cons b rest ih =>
    simp only [List.map_cons, List.nodup_cons] at hnodup
    obtain ⟨hb, hrest⟩ := hnodup
    simp only [putAccounts] at hok ⊢
    cases hm : env.codec.marshal b with
    | error e => simp [hm] at hok
    | ok j =>
      simp only [hm, PutState] at hok ⊢
      cases hp : env.putStateErr s b.ID j with
      | some e => simp [hp] at hok
      | none =>
        simp only [hp] at hok ⊢
        intro a ha
        rcases List.mem_cons.mp ha with rfl | ha
        · refine ⟨j, hm, ?_⟩
          rw [putAccounts_world_frame env rest _ a.ID]
          · simp
          · intro c hc hcb
            exact hb (List.mem_map.mpr ⟨c, hc, hcb⟩)
        · exact ih _ hok hrest a ha

/-- Ledger after `InitLedger` when the five seed records encode and no write fails. -/
theorem initLedger_success {env : Env} (hw : env.WritesSucceed) (s : Ledger)
    {j1 j2 j3 j4 j5 : Bytes}
    (h1 : env.codec.marshal ⟨"account1", 100, "JPMorgan Chase & Co."⟩ = .ok j1)
    (h2 : env.codec.marshal ⟨"account2", 200, "Bank of America Corp."⟩ = .ok j2)
    (h3 : env.codec.marshal ⟨"account3", 300, "JPMorgan Chase & Co."⟩ = .ok j3)
    (h4 : env.codec.marshal ⟨"account4", 400, "Bank of America Corp."⟩ = .ok j4)
    (h5 : env.codec.marshal ⟨"account5", 500, "JPMorgan Chase & Co."⟩ = .ok j5) :
    InitLedger env s =
      (none,
        { world := fun k =>
            if k = "account5" then some j5 else if k = "account4" then some j4
            else if k = "account3" then some j3 else if k = "account2" then some j2
            else if k = "account1" then some j1 else s.world k
          endorsers := s.endorsers
          calls := s.calls ++ [.putState "account1" j1, .putState "account2" j2,
            .putState "account3" j3, .putState "account4" j4, .putState "account5" j5] }) := by
  simp only [InitLedger, seedAccounts, putAccounts, h1, h2, h3, h4, h5,
    putState_of_writesSucceed hw, List.append_assoc, List.singleton_append, List.cons_append,
    List.nil_append]

/-- C12, counterexample: on a platform whose writes succeed and whose reads fail,
`InitLedger` succeeds from the empty ledger and the following authorized
`Transfer("account1", "account2", 50)` fails. -/
theorem seed_then_transfer_unreadable :
    unreadableEnv.Authorized ∧
    (InitLedger unreadableEnv emptyLedger).1 = none ∧
    (Transfer unreadableEnv "account1" "account2" 50 (InitLedger unreadableEnv emptyLedger).2).1 =
      some (.text "source account doesn't exist") ∧
    (Transfer unreadableEnv "account1" "account2" 50 (InitLedger unreadableEnv emptyLedger).2).1 ≠
      none := by
  have h50 : (0 : ℚ) < 50 := by norm_num
  have hfail : unreadableEnv.getStateErr (InitLedger unreadableEnv emptyLedger).2 "account1" =
      some "ledger unavailable" := rfl
  have h := transfer_source_error unreadableEnv_authorized "account1" "account2" h50
    (readAccount_readFailure unreadableEnv_authorized hfail)
  refine ⟨unreadableEnv_authorized, rfl, ?_, ?_⟩
  · rw [h]
  · rw [h]; simp

/-- C12, amended: on a platform with no storage failure and for an authorized caller,
from any ledger `InitLedger` succeeds and `ReadAccount` then returns account1..account5
with balances 100, 200, 300, 400, 500; the following `Transfer("account1", "account2", 50)`
succeeds, after which account1 reads with balance 50, account2 with balance 250, and
account3..account5 read as before. The codec is assumed to encode the seven records
involved and to decode them back. -/
theorem seed_then_transfer (env : Env) (s : Ledger)
    (hauth : env.Authorized) (hreads : env.ReadsSucceed) (hwrites : env.WritesSucceed)
    (h1 : env.codec.RoundTrips ⟨"account1", 100, "JPMorgan Chase & Co."⟩)
    (h2 : env.codec.RoundTrips ⟨"account2", 200, "Bank of America Corp."⟩)
    (h3 : env.codec.RoundTrips ⟨"account3", 300, "JPMorgan Chase & Co."⟩)
    (h4 : env.codec.RoundTrips ⟨"account4", 400, "Bank of America Corp."⟩)
    (h5 : env.codec.RoundTrips ⟨"account5", 500, "JPMorgan Chase & Co."⟩)
    (h1t : env.codec.RoundTrips ⟨"account1", 50, "JPMorgan Chase & Co."⟩)
    (h2t : env.codec.RoundTrips ⟨"account2", 250, "Bank of America Corp."⟩) :
    ∃ s1 s2, InitLedger env s = (none, s1) ∧
      (ReadAccount env "account1" s1).1 = .ok ⟨"account1", 100, "JPMorgan Chase & Co."⟩ ∧
      (ReadAccount env "account2" s1).1 = .ok ⟨"account2", 200, "Bank of America Corp."⟩ ∧
      (ReadAccount env "account3" s1).1 = .ok ⟨"account3", 300, "JPMorgan Chase & Co."⟩ ∧
      (ReadAccount env "account4" s1).1 = .ok ⟨"account4", 400, "Bank of America Corp."⟩ ∧
      (ReadAccount env "account5" s1).1 = .ok ⟨"account5", 500, "JPMorgan Chase & Co."⟩ ∧
      Transfer env "account1" "account2" 50 s1 = (none, s2) ∧
      (ReadAccount env "account1" s2).1 = .ok ⟨"account1", 50, "JPMorgan Chase & Co."⟩ ∧
      (ReadAccount env "account2" s2).1 = .ok ⟨"account2", 250, "Bank of America Corp."⟩ ∧
      (ReadAccount env "account3" s2).1 = .ok ⟨"account3", 300, "JPMorgan Chase & Co."⟩ ∧
      (ReadAccount env "account4" s2).1 = .ok ⟨"account4", 400, "Bank of America Corp."⟩ ∧
      (ReadAccount env "account5" s2).1 = .ok ⟨"account5", 500, "JPMorgan Chase & Co."⟩ := by
  obtain ⟨j1, hm1, hu1⟩ := h1
  obtain ⟨j2, hm2, hu2⟩ := h2
  obtain ⟨j3, hm3, hu3⟩ := h3
  obtain ⟨j4, hm4, hu4⟩ := h4
  obtain ⟨j5, hm5, hu5⟩ := h5
  obtain ⟨k1, hn1, hv1⟩ := h1t
  obtain ⟨k2, hn2, hv2⟩ := h2t
  have hinit := initLedger_success hwrites s hm1 hm2 hm3 hm4 hm5
  have e1 : ((100 : ℚ) - 50) = 50 := by norm_num
  have e2 : ((200 : ℚ) + 50) = 250 := by norm_num
  have hn1' : env.codec.marshal
      { (⟨"account1", 100, "JPMorgan Chase & Co."⟩ : Account) with
        Balance := (⟨"account1", 100, "JPMorgan Chase & Co."⟩ : Account).Balance - 50 } =
      .ok k1 := by
    show env.codec.marshal ⟨"account1", (100 : ℚ) - 50, "JPMorgan Chase & Co."⟩ = .ok k1
    rw [e1]; exact hn1
  have hn2' : env.codec.marshal
      { (⟨"account2", 200, "Bank of America Corp."⟩ : Account) with
        Balance := (⟨"account2", 200, "Bank of America Corp."⟩ : Account).Balance + 50 } =
      .ok k2 := by
    show env.codec.marshal ⟨"account2", (200 : ℚ) + 50, "Bank of America Corp."⟩ = .ok k2
    rw [e2]; exact hn2
  have h50 : (0 : ℚ) < 50 := by norm_num
  have hwa : (InitLedger env s).2.world "account1" = some j1 := by rw [hinit]; simp
  have hwb : (InitLedger env s).2.world "account2" = some j2 := by rw [hinit]; simp
  have htr := transfer_success hauth hreads hwrites h50 hwa hu1 hwb hu2 hn1' hn2'
  rw [hinit] at htr
  refine ⟨_, _, hinit, ?_, ?_, ?_, ?_, ?_, htr, ?_, ?_, ?_, ?_, ?_⟩
  · rw [readAccount_decodes hauth (hreads _ _) (by simp) hu1]
  · rw [readAccount_decodes hauth (hreads _ _) (by simp) hu2]
  · rw [readAccount_decodes hauth (hreads _ _) (by simp) hu3]
  · rw [readAccount_decodes hauth (hreads _ _) (by simp) hu4]
  · rw [readAccount_decodes hauth (hreads _ _) (by simp) hu5]
  · rw [readAccount_decodes hauth (hreads _ _) (by simp) hv1]
  · rw [readAccount_decodes hauth (hreads _ _) (by simp) hv2]
  · rw [readAccount_decodes hauth (hreads _ _) (by simp) hu3]
  · rw [readAccount_decodes hauth (hreads _ _) (by simp) hu4]
  · rw [readAccount_decodes hauth (hreads _ _) (by simp) hu5]

/-- Instance of C12, amended: seeding the empty ledger, then the transfer. -/
theorem seed_then_transfer_witness :
    org1Env.Authorized ∧ org1Env.ReadsSucceed ∧ org1Env.WritesSucceed ∧
    org1Env.codec.RoundTrips ⟨"account1", 100, "JPMorgan Chase & Co."⟩ ∧
    org1Env.codec.RoundTrips ⟨"account2", 200, "Bank of America Corp."⟩ ∧
    org1Env.codec.RoundTrips ⟨"account3", 300, "JPMorgan Chase & Co."⟩ ∧
    org1Env.codec.RoundTrips ⟨"account4", 400, "Bank of America Corp."⟩ ∧
    org1Env.codec.RoundTrips ⟨"account5", 500, "JPMorgan Chase & Co."⟩ ∧
    org1Env.codec.RoundTrips ⟨"account1", 50, "JPMorgan Chase & Co."⟩ ∧
    org1Env.codec.RoundTrips ⟨"account2", 250, "Bank of America Corp."⟩ ∧
    ∃ s1 s2, InitLedger org1Env emptyLedger = (none, s1) ∧
      (ReadAccount org1Env "account1" s1).1 = .ok ⟨"account1", 100, "JPMorgan Chase & Co."⟩ ∧
      (ReadAccount org1Env "account2" s1).1 = .ok ⟨"account2", 200, "Bank of America Corp."⟩ ∧
      (ReadAccount org1Env "account3" s1).1 = .ok ⟨"account3", 300, "JPMorgan Chase & Co."⟩ ∧
      (ReadAccount org1Env "account4" s1).1 = .ok ⟨"account4", 400, "Bank of America Corp."⟩ ∧
      (ReadAccount org1Env "account5" s1).1 = .ok ⟨"account5", 500, "JPMorgan Chase & Co."⟩ ∧
      Transfer org1Env "account1" "account2" 50 s1 = (none, s2) ∧
      (ReadAccount org1Env "account1" s2).1 = .ok ⟨"account1", 50, "JPMorgan Chase & Co."⟩ ∧
      (ReadAccount org1Env "account2" s2).1 = .ok ⟨"account2", 250, "Bank of America Corp."⟩ ∧
      (ReadAccount org1Env "account3" s2).1 = .ok ⟨"account3", 300, "JPMorgan Chase & Co."⟩ ∧
      (ReadAccount org1Env "account4" s2).1 = .ok ⟨"account4", 400, "Bank of America Corp."⟩ ∧
      (ReadAccount org1Env "account5" s2).1 = .ok ⟨"account5", 500, "JPMorgan Chase & Co."⟩ :=
  have r1 : wireCodec.RoundTrips ⟨"account1", 100, "JPMorgan Chase & Co."⟩ :=
    wireCodec_roundTrips_seed "account1" "JPMorgan Chase & Co." 100 rfl
  have r2 : wireCodec.RoundTrips ⟨"account2", 200, "Bank of America Corp."⟩ :=
    wireCodec_roundTrips_seed "account2" "Bank of America Corp." 200 rfl
  have r3 : wireCodec.RoundTrips ⟨"account3", 300, "JPMorgan Chase & Co."⟩ :=
    wireCodec_roundTrips_seed "account3" "JPMorgan Chase & Co." 300 rfl
  have r4 : wireCodec.RoundTrips ⟨"account4", 400, "Bank of America Corp."⟩ :=
    wireCodec_roundTrips_seed "account4" "Bank of America Corp." 400 rfl
  have r5 : wireCodec.RoundTrips ⟨"account5", 500, "JPMorgan Chase & Co."⟩ :=
    wireCodec_roundTrips_seed "account5" "JPMorgan Chase & Co." 500 rfl
  have r6 : wireCodec.RoundTrips ⟨"account1", 50, "JPMorgan Chase & Co."⟩ :=
    wireCodec_roundTrips_seed "account1" "JPMorgan Chase & Co." 50 rfl
  have r7 : wireCodec.RoundTrips ⟨"account2", 250, "Bank of America Corp."⟩ :=
    wireCodec_roundTrips_seed "account2" "Bank of America Corp." 250 rfl
  ⟨org1Env_authorized, org1Env_readsSucceed, org1Env_writesSucceed, r1, r2, r3, r4, r5, r6, r7,
    seed_then_transfer org1Env emptyLedger org1Env_authorized org1Env_readsSucceed
      org1Env_writesSucceed r1 r2 r3 r4 r5 r6 r7⟩

theorem seedAccounts_ids_nodup : (seedAccounts.map Account.ID).Nodup := by decide

theorem putAccounts_world_fixed (env : Env) (accounts : List Account) (t : Ledger)
    (h : ∀ a ∈ accounts, ∀ j, env.codec.marshal a = .ok j → t.world a.ID = some j) :
    (putAccounts env accounts t).2.world = t.world := by
  induction accounts generalizing t with
  | nil => rfl
  | cons a rest ih =>
    simp only [putAccounts]
    cases hm : env.codec.marshal a with
    | error e => rfl
    | ok j =>
      simp only [PutState]
      cases hp : env.putStateErr t a.ID j with
      | some e => rfl
      | none =>
        simp only []
        have hsame : (fun k => if k = a.ID then some j else t.world k) = t.world := by
          funext k
          by_cases hk : k = a.ID
          · rw [if_pos hk, hk]
            exact (h a (List.mem_cons_self a rest) j hm).symm
          · rw [if_neg hk]
        rw [ih]
        · exact hsame
        · intro b hb jb hmb
          show (if b.ID = a.ID then some j else t.world b.ID) = some jb
          rw [congrFun hsame b.ID]
          exact h b (List.mem_cons_of_mem a hb) jb hmb

/-- C13, counterexample: when the platform refuses the write, `InitLedger` returns an
error and account1 holds no record afterwards, so the seed keys do not hold the seed
records for every starting state; and when only the first write is refused, the failed
run leaves account1 without a record while the run after it stores one, so a failed run
is not idempotent. -/
theorem initLedger_failed_write_seeds_nothing :
    ((InitLedger unwritableEnv emptyLedger).1 =
        some (.text "failed to put to world state. ledger unavailable") ∧
      (InitLedger unwritableEnv emptyLedger).2.world "account1" = none) ∧
    ((InitLedger flakyWriteEnv emptyLedger).1 =
        some (.text "failed to put to world state. ledger unavailable") ∧
      (InitLedger flakyWriteEnv emptyLedger).2.world "account1" = none ∧
      (InitLedger flakyWriteEnv (InitLedger flakyWriteEnv emptyLedger).2).1 = none ∧
      (InitLedger flakyWriteEnv (InitLedger flakyWriteEnv emptyLedger).2).2.world "account1" ≠
        none ∧
      (InitLedger flakyWriteEnv (InitLedger flakyWriteEnv emptyLedger).2).2.world ≠
        (InitLedger flakyWriteEnv emptyLedger).2.world) := by
  have hsome : (InitLedger flakyWriteEnv (InitLedger flakyWriteEnv emptyLedger).2).2.world
      "account1" ≠ none := by
    have hstored := putAccounts_stored flakyWriteEnv seedAccounts
      (InitLedger flakyWriteEnv emptyLedger).2 rfl seedAccounts_ids_nodup
      ⟨"account1", 100, "JPMorgan Chase & Co."⟩ (by simp [seedAccounts])
    obtain ⟨j, _, hj⟩ := hstored
    intro hnone
    have hj' : (InitLedger flakyWriteEnv (InitLedger flakyWriteEnv emptyLedger).2).2.world
        "account1" = some j := hj
    rw [hnone] at hj'
    cases hj'
  refine ⟨⟨rfl, rfl⟩, rfl, rfl, rfl, hsome, ?_⟩
  intro heq
  apply hsome
  rw [heq]
  rfl

/-- C13, amended: (1) for every ledger, whether `InitLedger` succeeds or not, every key
outside account1..account5 holds afterwards what it held before, and the endorsement
metadata is unchanged; (2) when `InitLedger` succeeds, each seed key holds the encoding
of its seed account, whatever it held before; (3) when `InitLedger` succeeds, running it
again on the ledger it left leaves the same world state, whether or not that second run
succeeds. -/
theorem initLedger_idempotent_on_success (env : Env) (s : Ledger) :
    ((∀ k, k ∉ ["account1", "account2", "account3", "account4", "account5"] →
        (InitLedger env s).2.world k = s.world k) ∧
      (InitLedger env s).2.endorsers = s.endorsers) ∧
    ((InitLedger env s).1 = none →
      ∀ a ∈ seedAccounts, ∃ j, env.codec.marshal a = .ok j ∧
        (InitLedger env s).2.world a.ID = some j) ∧
    ((InitLedger env s).1 = none →
      (InitLedger env (InitLedger env s).2).2.world = (InitLedger env s).2.world) := by
  have hframe : ∀ (t : Ledger) (k : String),
      k ∉ ["account1", "account2", "account3", "account4", "account5"] →
      (InitLedger env t).2.world k = t.world k := by
    intro t k hk
    apply putAccounts_world_frame
    intro a ha hak
    apply hk
    rw [← hak]
    exact List.mem_map.mpr ⟨a, ha, rfl⟩
  refine ⟨⟨hframe s, putAccounts_endorsers env seedAccounts s⟩, ?_, ?_⟩
  · intro hok
    exact putAccounts_stored env seedAccounts s hok seedAccounts_ids_nodup
  · intro hok
    apply putAccounts_world_fixed
    intro a ha j hm
    obtain ⟨j1, hm1, hw1⟩ := putAccounts_stored env seedAccounts s hok
      seedAccounts_ids_nodup a ha
    rw [hm1] at hm
    cases hm
    exact hw1

/-- Instance of C13, amended: seeding the ledger that holds account1 and account2. -/
theorem initLedger_idempotent_on_success_witness :
    (InitLedger org1Env twoAccounts).1 = none ∧
    ((∀ k, k ∉ ["account1", "account2", "account3", "account4", "account5"] →
        (InitLedger org1Env twoAccounts).2.world k = twoAccounts.world k) ∧
      (InitLedger org1Env twoAccounts).2.endorsers = twoAccounts.endorsers) ∧
    (∀ a ∈ seedAccounts, ∃ j, org1Env.codec.marshal a = .ok j ∧
        (InitLedger org1Env twoAccounts).2.world a.ID = some j) ∧
    (InitLedger org1Env (InitLedger org1Env twoAccounts).2).2.world =
      (InitLedger org1Env twoAccounts).2.world :=
  ⟨rfl, (initLedger_idempotent_on_success org1Env twoAccounts).1,
    (initLedger_idempotent_on_success org1Env twoAccounts).2.1 rfl,
    (initLedger_idempotent_on_success org1Env twoAccounts).2.2 rfl⟩

/-! ## Wire format and bootstrap authorization -/

/-- C14: on the code the object keys are not "ID", "Balance", "Bank". The struct tags of
`Account` carry the Go type after the name, and a blank is allowed in a tag name, so the
keys written for every account are "ID", "Balance float32" and "Bank string", in that
order. -/
theorem account_json_keys :
    accountJsonKeys = ["ID", "Balance float32", "Bank string"] ∧
    accountJsonKeys ≠ ["ID", "Balance", "Bank"] ∧
    accountFields.map Prod.fst = ["ID", "Balance", "Bank"] := by
  decide

theorem putAccounts_identity (env : Env) (c p : Except String String)
    (accounts : List Account) (s : Ledger) :
    putAccounts { env with clientOrg := c, peerOrg := p } accounts s =
      putAccounts env accounts s := by
  induction accounts generalizing s with
  | nil => rfl
  | cons a rest ih =>
    simp only [putAccounts, PutState]
    cases env.codec.marshal a with
    | error e => rfl
    | ok j =>
      simp only []
      cases env.putStateErr s a.ID j with
      | some e => rfl
      | none => exact ih _

/-- C15: on the code `InitLedger` does not authorize. Its result does not depend on the
client or peer organisation at all, and for a client of Org2 on a peer of Org1 it succeeds
from the empty ledger and makes five `PutState` calls, after which account1 holds a
record. -/
theorem initLedger_ignores_caller :
    (∀ (env : Env) (c p : Except String String) (s : Ledger),
      InitLedger { env with clientOrg := c, peerOrg := p } s = InitLedger env s) ∧
    org2Env.Unauthorized ∧
    (InitLedger org2Env emptyLedger).1 = none ∧
    (InitLedger org2Env emptyLedger).2.calls.length = 5 ∧
    (InitLedger org2Env emptyLedger).2.world "account1" =
      some "\x7b\"ID\":\"account1\",\"Balance float32\":100,\"Bank string\":\"JPMorgan Chase & Co.\"\x7d" ∧
    emptyLedger.world "account1" = none :=
  ⟨fun env c p s => putAccounts_identity env c p seedAccounts s, org2Env_unauthorized,
    rfl, rfl, rfl, rfl⟩

/-! ## Order of the checks, read and write sets -/

theorem authorized_or_unauthorized (env : Env) : env.Authorized ∨ env.Unauthorized := by
  cases hc : env.clientOrg with
  | error e => exact Or.inr (Or.inl ⟨e, hc⟩)
  | ok c =>
    by_cases hp : env.peerOrg = .ok c
    · exact Or.inl ⟨c, hc, hp⟩
    · exact Or.inr (Or.inr ⟨c, hc, hp⟩)

theorem transfer_unauthorized {env : Env} (hun : env.Unauthorized) (fromId toId : String)
    (amount : ℚ) (s : Ledger) :
    ∃ m, Transfer env fromId toId amount s = (some (.authorization m), s) := by
  rcases guard_of_unauthorized hun with ⟨m, h1⟩ | ⟨org, m, h1, h2⟩
  · exact ⟨m, by simp only [Transfer, h1]⟩
  · exact ⟨m, by simp only [Transfer, h1, h2]⟩

theorem readAccount_ledger {env : Env} (h : env.Authorized) (id : String) (s : Ledger) :
    (ReadAccount env id s).2 = s.record (.getState id) := by
  rw [readAccount_of_authorized h]
  simp only [GetState]
  cases env.getStateErr s id with
  | some e => rfl
  | none =>
    cases s.world id with
    | none => rfl
    | some bs =>
      simp only []
      cases env.codec.unmarshal bs <;> rfl

/-- C16: `Transfer` checks authorization, then the amount, then the source, then the
destination, and reports the first failure. An unauthorized call gets the authorization
error whatever the amount and the ids; an authorized call with a non-positive amount gets
"amount must be positive" whatever the ids hold; an authorized call with a positive amount
and no record at `fromId` gets "source account doesn't exist" whatever `toId` holds; and
"destination account doesn't exist" is returned only when the amount is positive and
`ReadAccount(fromId)` returned an account. -/
theorem transfer_check_order (env : Env) (s : Ledger) (fromId toId : String) (amount : ℚ) :
    (env.Unauthorized →
      ∃ m, Transfer env fromId toId amount s = (some (.authorization m), s)) ∧
    (env.Authorized → amount ≤ 0 →
      Transfer env fromId toId amount s = (some (.text "amount must be positive"), s)) ∧
    (env.Authorized → 0 < amount → s.world fromId = none →
      (Transfer env fromId toId amount s).1 = some (.text "source account doesn't exist")) ∧
    ((Transfer env fromId toId amount s).1 =
        some (.text "destination account doesn't exist") →
      env.Authorized ∧ 0 < amount ∧ ∃ a, (ReadAccount env fromId s).1 = .ok a) := by
  refine ⟨fun hun => transfer_unauthorized hun fromId toId amount s,
    fun hauth hamt => transfer_nonpositive hauth fromId toId hamt s, ?_, ?_⟩
  · intro hauth hamt hw
    obtain ⟨e, he⟩ := readAccount_absent_error hauth hw
    rw [transfer_source_error hauth fromId toId hamt he]
  · intro h
    rcases authorized_or_unauthorized env with hauth | hun
    · refine ⟨hauth, ?_⟩
      rcases le_or_lt amount 0 with hamt | hamt
      · rw [transfer_nonpositive hauth fromId toId hamt s] at h
        have h' : (some (Err.text "amount must be positive") : Option Err) =
            some (.text "destination account doesn't exist") := h
        exact absurd h' (by decide)
      · refine ⟨hamt, ?_⟩
        rcases hr : ReadAccount env fromId s with ⟨r, s1⟩
        cases r with
        | error e =>
          rw [transfer_source_error hauth fromId toId hamt hr] at h
          have h' : (some (Err.text "source account doesn't exist") : Option Err) =
              some (.text "destination account doesn't exist") := h
          exact absurd h' (by decide)
        | ok a => exact ⟨a, rfl⟩
    · obtain ⟨m, hm⟩ := transfer_unauthorized hun fromId toId amount s
      rw [hm] at h
      cases h

/-- Instance of C16: the three rejections on concrete ledgers. -/
theorem transfer_check_order_witness :
    (org2Env.Unauthorized ∧
      ∃ m, Transfer org2Env "account8" "account9" 0 emptyLedger =
        (some (.authorization m), emptyLedger)) ∧
    (org1Env.Authorized ∧ (0 : ℚ) ≤ 0 ∧
      Transfer org1Env "account8" "account9" 0 emptyLedger =
        (some (.text "amount must be positive"), emptyLedger)) ∧
    (org1Env.Authorized ∧ (0 : ℚ) < 5 ∧ emptyLedger.world "account8" = none ∧
      (Transfer org1Env "account8" "account9" 5 emptyLedger).1 =
        some (.text "source account doesn't exist")) :=
  ⟨⟨org2Env_unauthorized,
      (transfer_check_order org2Env emptyLedger "account8" "account9" 0).1
        org2Env_unauthorized⟩,
    ⟨org1Env_authorized, le_refl 0,
      (transfer_check_order org1Env emptyLedger "account8" "account9" 0).2.1
        org1Env_authorized (le_refl 0)⟩,
    ⟨org1Env_authorized, by norm_num, rfl,
      (transfer_check_order org1Env emptyLedger "account8" "account9" 5).2.2.1
        org1Env_authorized (by norm_num) rfl⟩⟩

theorem transfer_of_reads {env : Env} (h : env.Authorized) {fromId toId : String}
    {amount : ℚ} (hamt : 0 < amount) {s sA sB : Ledger} {a b : Account}
    (hr1 : ReadAccount env fromId s = (.ok a, sA))
    (hr2 : ReadAccount env toId sA = (.ok b, sB)) :
    Transfer env fromId toId amount s =
      match env.codec.marshal { a with Balance := a.Balance - amount } with
      | .error e => (some (.codec e), sB)
      | .ok fromAccJson =>
        match PutState env fromId fromAccJson sB with
        | (some e, s3) => (some (.text e), s3)
        | (none, s3) =>
          match env.codec.marshal { b with Balance := b.Balance + amount } with
          | .error e => (some (.codec e), s3)
          | .ok toAccJson =>
            match PutState env toId toAccJson s3 with
            | (some e, s4) => (some (.text e), s4)
            | (none, s4) => (none, s4) := by
  obtain ⟨org, hc, hp⟩ := h
  obtain ⟨h1, h2⟩ := guard_of_authorized hc hp
  simp only [Transfer, h1, h2, if_neg (not_le.mpr hamt), hr1, hr2]

/-- C17: whenever `Transfer` succeeds, the stub calls it made are, in this order, the read
of `fromId`, the read of `toId`, the write of `fromId` and the write of `toId`, and nothing
else; every key other than `fromId` and `toId` holds what it held, and the endorsement
metadata is unchanged. A successful call is an authorized one. -/
theorem transfer_read_write_set (env : Env) (s s1 : Ledger) (fromId toId : String)
    (amount : ℚ) (hok : Transfer env fromId toId amount s = (none, s1)) :
    env.Authorized ∧
    (∃ fromJson toJson,
      s1.calls = s.calls ++ [.getState fromId, .getState toId,
        .putState fromId fromJson, .putState toId toJson]) ∧
    (∀ k, k ≠ fromId → k ≠ toId → s1.world k = s.world k) ∧
    s1.endorsers = s.endorsers := by
  rcases authorized_or_unauthorized env with hauth | hun
  swap
  · obtain ⟨m, hm⟩ := transfer_unauthorized hun fromId toId amount s
    rw [hm] at hok
    cases hok
  refine ⟨hauth, ?_⟩
  rcases le_or_lt amount 0 with hamt | hamt
  · rw [transfer_nonpositive hauth fromId toId hamt s] at hok
    cases hok
  rcases hr1 : ReadAccount env fromId s with ⟨r1, sA⟩
  have hA : sA = s.record (.getState fromId) := by
    have := readAccount_ledger hauth fromId s
    rw [hr1] at this
    exact this
  cases r1 with
  | error e =>
    rw [transfer_source_error hauth fromId toId hamt hr1] at hok
    cases hok
  | ok a =>
    rcases hr2 : ReadAccount env toId sA with ⟨r2, sB⟩
    have hB : sB = sA.record (.getState toId) := by
      have := readAccount_ledger hauth toId sA
      rw [hr2] at this
      exact this
    cases r2 with
    | error e =>
      rw [transfer_destination_error hauth fromId toId hamt hr1 hr2] at hok
      cases hok
    | ok b =>
      rw [transfer_of_reads hauth hamt hr1 hr2] at hok
      cases hma : env.codec.marshal { a with Balance := a.Balance - amount } with
      | error e =>
        rw [hma] at hok
        cases hok
      | ok fromJson =>
        simp only [hma, PutState] at hok
        cases hpa : env.putStateErr sB fromId fromJson with
        | some e =>
          rw [hpa] at hok
          cases hok
        | none =>
          simp only [hpa] at hok
          cases hmb : env.codec.marshal { b with Balance := b.Balance + amount } with
          | error e =>
            rw [hmb] at hok
            cases hok
          | ok toJson =>
            simp only [hmb] at hok
            split at hok
            next => cases hok
            next s4 hput =>
              split at hput
              next => cases hput
              next =>
                simp only [Prod.mk.injEq, true_and] at hok hput
                subst hok hput hB hA
                refine ⟨⟨fromJson, toJson, ?_⟩, ?_, rfl⟩
                · simp [Ledger.record]
                · intro k hk1 hk2
                  simp [Ledger.record, hk1, hk2]

/-- Instance of C17: the transfer of 50 from account1 to account2. -/
theorem transfer_read_write_set_witness :
    Transfer org1Env "account1" "account2" 50 twoAccounts =
      (none, (Transfer org1Env "account1" "account2" 50 twoAccounts).2) ∧
    org1Env.Authorized ∧
    (∃ fromJson toJson,
      (Transfer org1Env "account1" "account2" 50 twoAccounts).2.calls =
        twoAccounts.calls ++ [.getState "account1", .getState "account2",
          .putState "account1" fromJson, .putState "account2" toJson]) ∧
    (∀ k, k ≠ "account1" → k ≠ "account2" →
      (Transfer org1Env "account1" "account2" 50 twoAccounts).2.world k = twoAccounts.world k) ∧
    (Transfer org1Env "account1" "account2" 50 twoAccounts).2.endorsers =
      twoAccounts.endorsers :=
  have hok : Transfer org1Env "account1" "account2" 50 twoAccounts =
      (none, (Transfer org1Env "account1" "account2" 50 twoAccounts).2) := by
    have e1 : ((100 : ℚ) - 50) = ((50 : ℕ) : ℚ) := by norm_num
    have e2 : ((200 : ℚ) + 50) = ((250 : ℕ) : ℚ) := by norm_num
    have hma : org1Env.codec.marshal
        { (⟨"account1", 100, "JPMorgan"⟩ : Account) with
          Balance := (⟨"account1", 100, "JPMorgan"⟩ : Account).Balance - 50 } =
        .ok "\x7b\"ID\":\"account1\",\"Balance float32\":50,\"Bank string\":\"JPMorgan\"\x7d" := by
      show wireMarshal ⟨"account1", (100 : ℚ) - 50, "JPMorgan"⟩ = _
      rw [e1]
      simp [wireMarshal]
      rfl
    have hmb : org1Env.codec.marshal
        { (⟨"account2", 200, "BofA"⟩ : Account) with
          Balance := (⟨"account2", 200, "BofA"⟩ : Account).Balance + 50 } =
        .ok "\x7b\"ID\":\"account2\",\"Balance float32\":250,\"Bank string\":\"BofA\"\x7d" := by
      show wireMarshal ⟨"account2", (200 : ℚ) + 50, "BofA"⟩ = _
      rw [e2]
      simp [wireMarshal]
      rfl
    have hwa : twoAccounts.world "account1" = some record1 := rfl
    have hwb : twoAccounts.world "account2" = some record2 := rfl
    have hda : org1Env.codec.unmarshal record1 = .ok ⟨"account1", 100, "JPMorgan"⟩ := rfl
    have hdb : org1Env.codec.unmarshal record2 = .ok ⟨"account2", 200, "BofA"⟩ := rfl
    rw [transfer_success org1Env_authorized org1Env_readsSucceed org1Env_writesSucceed
      (by norm_num : (0 : ℚ) < 50) hwa hda hwb hdb hma hmb]
  ⟨hok, transfer_read_write_set org1Env twoAccounts _ "account1" "account2" 50 hok⟩

/-! ## Overdraft -/

theorem wireCodec_roundTrips_int (id bank : String) (i : ℤ)
    (h : wireUnmarshal ("\x7b\"ID\":\"" ++ id ++ "\",\"Balance float32\":" ++ showInt i
          ++ ",\"Bank string\":\"" ++ bank ++ "\"\x7d") =
        .ok { ID := id, Balance := (i : ℚ), Bank := bank }) :
    wireCodec.RoundTrips { ID := id, Balance := (i : ℚ), Bank := bank } := by
  refine ⟨_, ?_, h⟩
  simp [wireCodec, wireMarshal]

theorem float32Env_authorized : float32Env.Authorized := ⟨"Org1MSP", rfl, rfl⟩

/-- C18, counterexample: with distinct decodable accounts, a positive amount and an
authorized caller, `Transfer` still fails (1) when the platform cannot be read, and
(2) with no storage failure at all, when the debit takes the source balance out of the
range of `float32`: account1 holds -2^127, sending 2^127 more gives -Inf, which the encoder
refuses, and `Transfer` returns that error. -/
theorem transfer_overdraft_failures :
    (unreadableEnv.Authorized ∧ "account1" ≠ "account2" ∧ (0 : ℚ) < 500 ∧
      twoAccounts.world "account1" = some record1 ∧
      unreadableEnv.codec.unmarshal record1 = .ok ⟨"account1", 100, "JPMorgan"⟩ ∧
      twoAccounts.world "account2" = some record2 ∧
      unreadableEnv.codec.unmarshal record2 = .ok ⟨"account2", 200, "BofA"⟩ ∧
      (Transfer unreadableEnv "account1" "account2" 500 twoAccounts).1 =
        some (.text "source account doesn't exist")) ∧
    (float32Env.Authorized ∧ float32Env.ReadsSucceed ∧ float32Env.WritesSucceed ∧
      "account1" ≠ "account2" ∧ (0 : ℚ) < 170141183460469231731687303715884105728 ∧
      overdrawnLedger.world "account1" = some overdrawnRecord ∧
      float32Env.codec.unmarshal overdrawnRecord =
        .ok ⟨"account1", ((-170141183460469231731687303715884105728 : ℤ) : ℚ), "JPMorgan"⟩ ∧
      overdrawnLedger.world "account2" = some record2 ∧
      float32Env.codec.unmarshal record2 = .ok ⟨"account2", 200, "BofA"⟩ ∧
      (Transfer float32Env "account1" "account2" 170141183460469231731687303715884105728
          overdrawnLedger).1 =
        some (.codec "json: unsupported value: -Inf")) := by
  have h500 : (0 : ℚ) < 500 := by norm_num
  have hfail : unreadableEnv.getStateErr twoAccounts "account1" = some "ledger unavailable" :=
    rfl
  have h1 := transfer_source_error unreadableEnv_authorized "account1" "account2" h500
    (readAccount_readFailure unreadableEnv_authorized hfail)
  have hbig : (0 : ℚ) < 170141183460469231731687303715884105728 := by norm_num
  have hda : float32Env.codec.unmarshal overdrawnRecord =
      .ok ⟨"account1", ((-170141183460469231731687303715884105728 : ℤ) : ℚ), "JPMorgan"⟩ :=
    rfl
  have hdb : float32Env.codec.unmarshal record2 = .ok ⟨"account2", 200, "BofA"⟩ := rfl
  have hr1 : ReadAccount float32Env "account1" overdrawnLedger =
      (.ok ⟨"account1", ((-170141183460469231731687303715884105728 : ℤ) : ℚ), "JPMorgan"⟩,
        overdrawnLedger.record (.getState "account1")) :=
    readAccount_decodes float32Env_authorized rfl rfl hda
  have hr2 : ReadAccount float32Env "account2" (overdrawnLedger.record (.getState "account1")) =
      (.ok ⟨"account2", 200, "BofA"⟩,
        (overdrawnLedger.record (.getState "account1")).record (.getState "account2")) :=
    readAccount_decodes float32Env_authorized rfl rfl hdb
  have hm : float32Env.codec.marshal
      { (⟨"account1", ((-170141183460469231731687303715884105728 : ℤ) : ℚ), "JPMorgan"⟩ :
          Account) with
        Balance := (⟨"account1", ((-170141183460469231731687303715884105728 : ℤ) : ℚ),
          "JPMorgan"⟩ : Account).Balance - 170141183460469231731687303715884105728 } =
      .error "json: unsupported value: -Inf" := by
    show float32Marshal ⟨"account1",
      ((-170141183460469231731687303715884105728 : ℤ) : ℚ) -
        170141183460469231731687303715884105728, "JPMorgan"⟩ = _
    unfold float32Marshal
    rw [if_neg (by norm_num [float32Overflow]), if_pos (by norm_num [float32Overflow])]
  have h2 := transfer_of_reads float32Env_authorized hbig hr1 hr2
  rw [hm] at h2
  refine ⟨⟨unreadableEnv_authorized, by decide, h500, rfl, rfl, rfl, rfl, ?_⟩,
    float32Env_authorized, fun _ _ => rfl, ⟨fun _ _ _ => rfl, fun _ _ => rfl⟩, by decide, hbig,
    rfl, hda, rfl, hdb, ?_⟩
  · rw [h1]
  · rw [h2]

/-- C18, amended: taking balance arithmetic as exact, for an authorized caller on a
platform with no storage failure, two distinct keys holding decodable records and a
positive amount, and provided the two updated records can be encoded (the source one
decoding back to itself), `Transfer` succeeds whatever the source balance is; the source
record read afterwards has balance `a.Balance - amount`, which is negative when the amount
exceeds the source balance: no floor is applied. -/
theorem transfer_allows_overdraft (env : Env) (s : Ledger) (fromId toId : String)
    (amount : ℚ) (bsFrom bsTo toJson : Bytes) (a b : Account)
    (hauth : env.Authorized) (hreads : env.ReadsSucceed) (hwrites : env.WritesSucceed)
    (hne : fromId ≠ toId) (hamt : 0 < amount)
    (hwa : s.world fromId = some bsFrom) (hda : env.codec.unmarshal bsFrom = .ok a)
    (hwb : s.world toId = some bsTo) (hdb : env.codec.unmarshal bsTo = .ok b)
    (hca : env.codec.RoundTrips { a with Balance := a.Balance - amount })
    (hmb : env.codec.marshal { b with Balance := b.Balance + amount } = .ok toJson) :
    ∃ s1 a1, Transfer env fromId toId amount s = (none, s1) ∧
      (ReadAccount env fromId s1).1 = .ok a1 ∧
      a1.Balance = a.Balance - amount ∧
      (a.Balance < amount → a1.Balance < 0) := by
  obtain ⟨fromJson, hma, hua⟩ := hca
  refine ⟨_, { a with Balance := a.Balance - amount },
    transfer_success hauth hreads hwrites hamt hwa hda hwb hdb hma hmb, ?_, rfl, ?_⟩
  · have hw1 : (if fromId = toId then some toJson else
        if fromId = fromId then some fromJson else s.world fromId) = some fromJson := by
      simp [hne]
    rw [readAccount_decodes hauth (hreads _ fromId) hw1 hua]
  · intro hlt
    show a.Balance - amount < 0
    linarith

/-- Instance of C18, amended: account1 holds 100 and sends 500 to account2. -/
theorem transfer_allows_overdraft_witness :
    org1Env.Authorized ∧ org1Env.ReadsSucceed ∧ org1Env.WritesSucceed ∧
    "account1" ≠ "account2" ∧ (0 : ℚ) < 500 ∧
    twoAccounts.world "account1" = some record1 ∧
    org1Env.codec.unmarshal record1 = .ok ⟨"account1", 100, "JPMorgan"⟩ ∧
    twoAccounts.world "account2" = some record2 ∧
    org1Env.codec.unmarshal record2 = .ok ⟨"account2", 200, "BofA"⟩ ∧
    ∃ s1 a1, Transfer org1Env "account1" "account2" 500 twoAccounts = (none, s1) ∧
      (ReadAccount org1Env "account1" s1).1 = .ok a1 ∧
      a1.Balance = 100 - 500 ∧
      ((100 : ℚ) < 500 → a1.Balance < 0) :=
  ⟨org1Env_authorized, org1Env_readsSucceed, org1Env_writesSucceed, by decide, by norm_num,
    rfl, rfl, rfl, rfl,
    transfer_allows_overdraft org1Env twoAccounts "account1" "account2" 500 record1 record2
      "\x7b\"ID\":\"account2\",\"Balance float32\":700,\"Bank string\":\"BofA\"\x7d"
      ⟨"account1", 100, "JPMorgan"⟩ ⟨"account2", 200, "BofA"⟩
      org1Env_authorized org1Env_readsSucceed org1Env_writesSucceed (by decide) (by norm_num)
      rfl rfl rfl rfl
      (by
        have h : ((100 : ℚ) - 500) = (((-400 : ℤ)) : ℚ) := by norm_num
        show wireCodec.RoundTrips ⟨"account1", (100 : ℚ) - 500, "JPMorgan"⟩
        rw [h]
        exact wireCodec_roundTrips_int "account1" "JPMorgan" (-400) rfl)
      (by
        have h : ((200 : ℚ) + 500) = ((700 : ℕ) : ℚ) := by norm_num
        show wireMarshal ⟨"account2", (200 : ℚ) + 500, "BofA"⟩ = _
        rw [h]
        simp [wireMarshal]
        rfl)⟩

/-! ## Creation never succeeds; the reads are read-only -/

theorem not_unauthorized_of_authorized {env : Env} (h : env.Authorized) : ¬ env.Unauthorized := by
  obtain ⟨org, hc, hp⟩ := h
  rintro (⟨e, he⟩ | ⟨c, hc2, hp2⟩)
  · rw [hc] at he
    cases he
  · rw [hc] at hc2
    cases hc2
    exact hp2 hp

theorem createAccount_unauthorized {env : Env} (hun : env.Unauthorized) (id : String)
    (balance : ℚ) (bank : String) (s : Ledger) :
    ∃ m, CreateAccount env id balance bank s = (some (.authorization m), s) := by
  rcases guard_of_unauthorized hun with ⟨m, h1⟩ | ⟨org, m, h1, h2⟩
  · exact ⟨m, by simp only [CreateAccount, h1]⟩
  · exact ⟨m, by simp only [CreateAccount, h1, h2]⟩

/-- C19: `CreateAccount` never succeeds and never writes. For every environment, ledger,
id, balance and bank it returns an error; the world state and the endorsement metadata
are unchanged; the only stub call it can make is the read of id, so there is no `PutState`
and no endorsement call. For an authorized caller whose read does not fail, the error is
the not-found error of the inner `AccountExists` when id is absent and the already-exists
error when id is present. -/
theorem createAccount_never_succeeds (env : Env) (s : Ledger) (id : String) (balance : ℚ)
    (bank : String) :
    ∃ e s1, CreateAccount env id balance bank s = (some e, s1) ∧
      s1.world = s.world ∧ s1.endorsers = s.endorsers ∧
      (s1.calls = s.calls ∨ s1.calls = s.calls ++ [.getState id]) ∧
      (env.Authorized → env.getStateErr s id = none → s.world id = none →
        (AccountExists env id s).1 = (false, some e) ∧
        e = .text ("the account " ++ id ++ " does not exist")) ∧
      (env.Authorized → env.getStateErr s id = none → s.world id ≠ none →
        e = .text ("the account " ++ id ++ " already exists")) := by
  rcases authorized_or_unauthorized env with hauth | hun
  · cases hg : env.getStateErr s id with
    | some e' =>
      refine ⟨_, _, createAccount_of_exists_error hauth balance bank
        (accountExists_readFailure hauth hg), rfl, rfl, Or.inr rfl, ?_, ?_⟩
      · intro _ h; cases h
      · intro _ h; cases h
    | none =>
      cases hw : s.world id with
      | none =>
        have hx := accountExists_absent hauth hg hw
        refine ⟨_, _, createAccount_of_exists_error hauth balance bank hx,
          rfl, rfl, Or.inr rfl, ?_, ?_⟩
        · intro _ _ _
          rw [hx]
          exact ⟨rfl, rfl⟩
        · intro _ _ h
          exact absurd rfl h
      | some bs =>
        refine ⟨_, _, createAccount_of_exists_true hauth balance bank
          (accountExists_present hauth hg hw), rfl, rfl, Or.inr rfl, ?_, ?_⟩
        · intro _ _ h; cases h
        · intro _ _ _; rfl
  · obtain ⟨m, hm⟩ := createAccount_unauthorized hun id balance bank s
    refine ⟨_, _, hm, rfl, rfl, Or.inl rfl, ?_, ?_⟩
    · intro h; exact absurd hun (not_unauthorized_of_authorized h)
    · intro h; exact absurd hun (not_unauthorized_of_authorized h)

/-- Instance of C19: an absent id and a present id, for an authorized caller. -/
theorem createAccount_never_succeeds_witness :
    org1Env.Authorized ∧ org1Env.getStateErr twoAccounts "account9" = none ∧
    twoAccounts.world "account9" = none ∧
    org1Env.getStateErr twoAccounts "account1" = none ∧
    twoAccounts.world "account1" ≠ none ∧
    (∃ e s1, CreateAccount org1Env "account9" 10 "Bank" twoAccounts = (some e, s1) ∧
      (AccountExists org1Env "account9" twoAccounts).1 = (false, some e) ∧
      e = .text ("the account " ++ "account9" ++ " does not exist")) ∧
    (∃ e s1, CreateAccount org1Env "account1" 10 "Bank" twoAccounts = (some e, s1) ∧
      e = .text ("the account " ++ "account1" ++ " already exists")) := by
  have hpresent : twoAccounts.world "account1" ≠ none := by
    show some record1 ≠ none
    simp
  refine ⟨org1Env_authorized, rfl, rfl, rfl, hpresent, ?_, ?_⟩
  · obtain ⟨e, s1, h, _, _, _, habs, _⟩ :=
      createAccount_never_succeeds org1Env twoAccounts "account9" 10 "Bank"
    exact ⟨e, s1, h, habs org1Env_authorized rfl rfl⟩
  · obtain ⟨e, s1, h, _, _, _, _, hpres⟩ :=
      createAccount_never_succeeds org1Env twoAccounts "account1" 10 "Bank"
    exact ⟨e, s1, h, hpres org1Env_authorized rfl hpresent⟩

theorem accountExists_unauthorized {env : Env} (hun : env.Unauthorized) (id : String)
    (s : Ledger) :
    ∃ m, AccountExists env id s = ((false, some (.authorization m)), s) := by
  rcases guard_of_unauthorized hun with ⟨m, h1⟩ | ⟨org, m, h1, h2⟩
  · exact ⟨m, by simp only [AccountExists, h1]⟩
  · exact ⟨m, by simp only [AccountExists, h1, h2]⟩

theorem readAccount_unauthorized {env : Env} (hun : env.Unauthorized) (id : String)
    (s : Ledger) :
    ∃ m, ReadAccount env id s = (.error (.authorization m), s) := by
  rcases guard_of_unauthorized hun with ⟨m, h1⟩ | ⟨org, m, h1, h2⟩
  · exact ⟨m, by simp only [ReadAccount, h1]⟩
  · exact ⟨m, by simp only [ReadAccount, h1, h2]⟩

theorem accountExists_ledger {env : Env} (h : env.Authorized) (id : String) (s : Ledger) :
    (AccountExists env id s).2 = s.record (.getState id) := by
  rw [accountExists_of_authorized h]
  simp only [GetState]
  cases env.getStateErr s id with
  | some e => rfl
  | none =>
    cases s.world id with
    | none => rfl
    | some bs => rfl

theorem accountExists_result_congr {env : Env} (h : env.Authorized) (id : String)
    {s t : Ledger} (hw : t.world id = s.world id)
    (hg : env.getStateErr t id = env.getStateErr s id) :
    (AccountExists env id t).1 = (AccountExists env id s).1 := by
  rw [accountExists_of_authorized h, accountExists_of_authorized h]
  simp only [GetState, hw, hg]
  cases env.getStateErr s id with
  | some e => rfl
  | none =>
    cases s.world id with
    | none => rfl
    | some bs => rfl

theorem readAccount_result_congr {env : Env} (h : env.Authorized) (id : String)
    {s t : Ledger} (hw : t.world id = s.world id)
    (hg : env.getStateErr t id = env.getStateErr s id) :
    (ReadAccount env id t).1 = (ReadAccount env id s).1 := by
  rw [readAccount_of_authorized h, readAccount_of_authorized h]
  simp only [GetState, hw, hg]
  cases env.getStateErr s id with
  | some e => rfl
  | none =>
    cases s.world id with
    | none => rfl
    | some bs =>
      simp only []
      cases env.codec.unmarshal bs <;> rfl

/-- C20, counterexample: on a platform where only the first read fails, `AccountExists`
and `ReadAccount` of account1 return the read failure the first time and, called again on
the ledger the first call left (same world state), return true and the account. -/
theorem reads_twice_transient_failure :
    (AccountExists flakyEnv "account1" twoAccounts).2.world = twoAccounts.world ∧
    (AccountExists flakyEnv "account1" twoAccounts).1 =
      (false, some (.text "failed to read from world state: ledger unavailable")) ∧
    (AccountExists flakyEnv "account1" (AccountExists flakyEnv "account1" twoAccounts).2).1 =
      (true, none) ∧
    (ReadAccount flakyEnv "account1" twoAccounts).2.world = twoAccounts.world ∧
    (ReadAccount flakyEnv "account1" twoAccounts).1 =
      .error (.text "failed to read from world state: ledger unavailable") ∧
    (ReadAccount flakyEnv "account1" (ReadAccount flakyEnv "account1" twoAccounts).2).1 =
      .ok ⟨"account1", 100, "JPMorgan"⟩ :=
  ⟨rfl, rfl, rfl, rfl, rfl, rfl⟩

/-- C20, amended: `AccountExists` and `ReadAccount` are read-only. For every environment,
ledger and id, whether they succeed or fail, the world state and the endorsement metadata
after the call are those before it, and the only stub call they can make is the read of id
(no `PutState`, no `DelState`). Called a second time on the ledger the first call left,
each returns the result it returned the first time, provided the platform answers the read
of id as it did the first time. -/
theorem reads_are_read_only (env : Env) (s : Ledger) (id : String) :
    ((AccountExists env id s).2.world = s.world ∧
      (AccountExists env id s).2.endorsers = s.endorsers ∧
      ((AccountExists env id s).2.calls = s.calls ∨
        (AccountExists env id s).2.calls = s.calls ++ [.getState id])) ∧
    ((ReadAccount env id s).2.world = s.world ∧
      (ReadAccount env id s).2.endorsers = s.endorsers ∧
      ((ReadAccount env id s).2.calls = s.calls ∨
        (ReadAccount env id s).2.calls = s.calls ++ [.getState id])) ∧
    (env.getStateErr (AccountExists env id s).2 id = env.getStateErr s id →
      (AccountExists env id (AccountExists env id s).2).1 = (AccountExists env id s).1) ∧
    (env.getStateErr (ReadAccount env id s).2 id = env.getStateErr s id →
      (ReadAccount env id (ReadAccount env id s).2).1 = (ReadAccount env id s).1) := by
  rcases authorized_or_unauthorized env with hauth | hun
  · have hx := accountExists_ledger hauth id s
    have hr := readAccount_ledger hauth id s
    refine ⟨?_, ?_, ?_, ?_⟩
    · rw [hx]; exact ⟨rfl, rfl, Or.inr rfl⟩
    · rw [hr]; exact ⟨rfl, rfl, Or.inr rfl⟩
    · intro hg
      refine accountExists_result_congr hauth id ?_ hg
      rw [hx]; rfl
    · intro hg
      refine readAccount_result_congr hauth id ?_ hg
      rw [hr]; rfl
  · obtain ⟨m, hx⟩ := accountExists_unauthorized hun id s
    obtain ⟨m2, hr⟩ := readAccount_unauthorized hun id s
    refine ⟨?_, ?_, ?_, ?_⟩
    · rw [hx]; exact ⟨rfl, rfl, Or.inl rfl⟩
    · rw [hr]; exact ⟨rfl, rfl, Or.inl rfl⟩
    · intro _
      rw [hx]
      show (AccountExists env id s).1 = _
      rw [hx]
    · intro _
      rw [hr]
      show (ReadAccount env id s).1 = _
      rw [hr]

/-- Instance of C20, amended: account1 read twice on a ledger with two accounts. -/
theorem reads_are_read_only_witness :
    org1Env.getStateErr (AccountExists org1Env "account1" twoAccounts).2 "account1" =
      org1Env.getStateErr twoAccounts "account1" ∧
    org1Env.getStateErr (ReadAccount org1Env "account1" twoAccounts).2 "account1" =
      org1Env.getStateErr twoAccounts "account1" ∧
    (AccountExists org1Env "account1" (AccountExists org1Env "account1" twoAccounts).2).1 =
      (AccountExists org1Env "account1" twoAccounts).1 ∧
    (ReadAccount org1Env "account1" (ReadAccount org1Env "account1" twoAccounts).2).1 =
      (ReadAccount org1Env "account1" twoAccounts).1 ∧
    (AccountExists org1Env "account1" twoAccounts).1 = (true, none) ∧
    (ReadAccount org1Env "account1" twoAccounts).1 = .ok ⟨"account1", 100, "JPMorgan"⟩ :=
  ⟨rfl, rfl,
    (reads_are_read_only org1Env twoAccounts "account1").2.2.1 rfl,
    (reads_are_read_only org1Env twoAccounts "account1").2.2.2 rfl,
    rfl, rfl⟩

end HyperPay
